import Mathlib

/-!
Verification of the Cabel_Monitor signal pipeline (`Core/Src/calculations.c`).

This file shallowly embeds the acquisition pipeline of `calculations.c`:
the per-cycle averaging of FFT tone magnitudes (`calculate_FFT`,
`averaging_FFT_semples`), the calibration lookup (`distance_LUT`), the
law-of-cosines position solver (the body of `calculate_pos`), the current
estimator (`calculate_current`) and the display-boundary clamp
(`check_display_bounderies`).

Modelling conventions:

* C `int`/`int32_t` variables become `ℤ`, `uint32_t` become `ℕ`; `double`
  and `float` quantities that the claims compare or publish become `ℚ`
  (every finite double value is a rational, and all constants involved are
  exact decimal or dyadic literals).  The one place where IEEE special
  values matter — the law-of-cosines quotient whose denominator can be the
  integer 0 — is modelled precisely by `CosVal`/`divD` below, including
  the `+inf`/`-inf`/`NaN` outcomes and their comparison semantics.
* The ARM FFT and `hypot` magnitude extraction operate on raw ADC buffers
  that come from hardware; one acquisition cycle is therefore modelled as
  consuming the four per-channel tone magnitudes (`Tones`) as inputs, the
  values the C code stores into the `*_FFT_avg_array` slots.
  `split_Array` and `clear_Buffer` only shuffle and clear those raw sample
  buffers and have no effect on any published state, so they do not appear
  in the state.
* The calibration tables are `#include`d CSV data not present in the
  sources; the spec treats them as opaque read-only monotonic data.  They
  are therefore parameters (`lutL lutR : ℤ → ℤ`) of every stage that uses
  them; no claim depends on their contents.
* The transcendental sub-expressions of the solver (`cos(acos c)·d`
  truncated to `int`, `sin`/`sin(π−acos c)·d` truncated to `int`, and
  `atan2`) are abstracted by a `TrigOracle` of arbitrary functions, so
  every theorem quantifying over the oracle holds in particular for the
  real libm implementation.  The *comparisons* the C code performs on
  angles are translated exactly, using that `acos` is strictly decreasing
  on `[-1,1]`: `acos x < π/2 ↔ x > 0` and `acos x < acos y ↔ x > y`.
* Two ghost fields `lut_runs` and `curr_runs` count the invocations of
  `distance_LUT` and `calculate_current`; they exist only to make "stage
  was (not) invoked" observable and influence nothing else.
-/

set_option maxRecDepth 100000

namespace CabelMonitor

/-! ## Error codes (`error_code.h`) and constants (`calculations.c` defines) -/

/-- The C macro `#define FFT_NO_SIGNAL 1111` from `error_code.h`. -/
def FFT_NO_SIGNAL : ℤ := 1111

/-- The C macro `#define CALC_OUTOF_Y_RANGE 2222` from `error_code.h`. -/
def CALC_OUTOF_Y_RANGE : ℤ := 2222

/-- The C macro `#define CALC_OUTOF_X_RANGE 2333` from `error_code.h`. -/
def CALC_OUTOF_X_RANGE : ℤ := 2333

/-- The C macro `#define CALC_OUTOF_ANGLE_RANGE 2444` from `error_code.h`; it is stored
into the `double` variable `Gamma`, hence typed `ℚ` here. -/
def CALC_OUTOF_ANGLE_RANGE : ℚ := 2444

/-- The C macro `#define CURR_OUTOF_Y_RANGE 4444` from `error_code.h`; stored into the
`float` variable `current`. -/
def CURR_OUTOF_Y_RANGE : ℚ := 4444

/-- The C macro `#define CURR_OUTOF_Angle_RANGE 4555` from `error_code.h`. -/
def CURR_OUTOF_Angle_RANGE : ℚ := 4555

/-- The C macro `#define PAD_SPACING 50` (mm). -/
def PAD_SPACING : ℤ := 50

/-- The C macro `#define MAX_Y_DISTANCE 200` (mm). -/
def MAX_Y_DISTANCE : ℤ := 200

/-- The C macro `#define MAX_X_DISTANCE 100` (mm). -/
def MAX_X_DISTANCE : ℤ := 100

/-- The C macro `#define CURRENT_FACTOR 0.357`, taken at its exact decimal value. -/
def CURRENT_FACTOR : ℚ := 357 / 1000

/-- The exact rational value of the IEEE-754 double constant `M_PI / 2`
(`M_PI` is `884279719003555 / 2^48`). -/
def m_pi_half : ℚ := 884279719003555 / 562949953421312

/-- The C macro `#define RAD_TO_DEGREE 57.295779513` taken at its exact decimal value. -/
def rad_to_degree : ℚ := 57295779513 / 1000000000

/-- The local constant `const int LPAD_Min = 200;` in `distance_LUT`. -/
def LPAD_Min : ℤ := 200

/-- The local constant `const int LPAD_Max = 1458;` in `distance_LUT`. -/
def LPAD_Max : ℤ := 1458

/-- The local constant `const int RPAD_Min = 200;` in `distance_LUT`. -/
def RPAD_Min : ℤ := 200

/-- The local constant `const int RPAD_Max = 1466;` in `distance_LUT`. -/
def RPAD_Max : ℤ := 1466

/-! ## Data model -/

/-- The four tone magnitudes of one acquisition cycle: the `uint32_t`
values `(uint32_t)(hypot(..FFT[10], ..FFT[11]) * sqrt(2) / ADC_NUMS)` that
`calculate_FFT` stores into the averaging arrays, one per channel. -/
structure Tones where
  lpad : ℕ
  rpad : ℕ
  lhall : ℕ
  rhall : ℕ

/-- The persistent (file-`static`) state of `calculations.c` that the
pipeline reads and writes across acquisition cycles, plus the two ghost
invocation counters. -/
structure CalcState where
  /-- The C variable `static uint32_t LPAD_FFT_avg_array[FFT_AVG_NUMS]` (`FFT_AVG_NUMS = 3`). -/
  LPAD_FFT_avg_array : Fin 3 → ℕ
  /-- The C variable `static uint32_t RPAD_FFT_avg_array[3]`. -/
  RPAD_FFT_avg_array : Fin 3 → ℕ
  /-- The C variable `static uint32_t LHALL_FFT_avg_array[3]`. -/
  LHALL_FFT_avg_array : Fin 3 → ℕ
  /-- The C variable `static uint32_t RHALL_FFT_avg_array[3]`. -/
  RHALL_FFT_avg_array : Fin 3 → ℕ
  /-- The C variable `static int32_t LPAD_FFT_distance` — averaged magnitude, then (after
  `distance_LUT`) the calibrated left-pad distance. -/
  LPAD_FFT_distance : ℤ
  /-- The C variable `static int32_t RPAD_FFT_distance`. -/
  RPAD_FFT_distance : ℤ
  /-- The C variable `static int32_t LHALL_FFT_voltage`. -/
  LHALL_FFT_voltage : ℤ
  /-- The C variable `static int32_t RHALL_FFT_voltage`. -/
  RHALL_FFT_voltage : ℤ
  /-- The C variable `static int X_Pos`. -/
  X_Pos : ℤ
  /-- The C variable `static int Y_Pos`. -/
  Y_Pos : ℤ
  /-- The C variable `static double Gamma`. -/
  Gamma : ℚ
  /-- The C variable `static float current`. -/
  current : ℚ
  /-- The C variable `static int avg_counter`. -/
  avg_counter : ℤ
  /-- The C variable `int num_of_samples`. -/
  num_of_samples : ℤ
  /-- Ghost: number of completed `distance_LUT` invocations. -/
  lut_runs : ℕ
  /-- Ghost: number of completed `calculate_current` invocations. -/
  curr_runs : ℕ

/-- Startup state: all file-`static` variables of `calculations.c` are
zero-initialised. -/
def initState : CalcState where
  LPAD_FFT_avg_array := fun _ => 0
  RPAD_FFT_avg_array := fun _ => 0
  LHALL_FFT_avg_array := fun _ => 0
  RHALL_FFT_avg_array := fun _ => 0
  LPAD_FFT_distance := 0
  RPAD_FFT_distance := 0
  LHALL_FFT_voltage := 0
  RHALL_FFT_voltage := 0
  X_Pos := 0
  Y_Pos := 0
  Gamma := 0
  current := 0
  avg_counter := 0
  num_of_samples := 0
  lut_runs := 0
  curr_runs := 0

/-- Write `v` into slot `i` of a capacity-3 array.  The C code indexes the
array with `avg_counter` unconditionally; an out-of-range index would be
undefined behaviour, modelled here as a no-op (claim C9 shows the index is
always in range under the caller contract). -/
def setSlot (a : Fin 3 → ℕ) (i : ℤ) (v : ℕ) : Fin 3 → ℕ :=
  if h : 0 ≤ i ∧ i < 3 then
    Function.update a ⟨i.toNat, by omega⟩ v
  else a

/-- Sum of slots `0 .. n-1` of an averaging array, as computed by the
summation loop `for(i = 0; i < num_of_samples; i++)` in
`averaging_FFT_semples` (left-to-right accumulation; for the contractual
`n ≤ 3` the `% 3` is the identity). -/
def slotSum (a : Fin 3 → ℕ) : ℕ → ℕ
  | 0 => 0
  | n + 1 => slotSum a n + a ⟨(n : ℕ) % 3, Nat.mod_lt n (by norm_num)⟩

/-! ## `distance_LUT` -/

/-- The branch structure `distance_LUT` applies to one channel: magnitude
strictly between the bounds reads the table at offset `r - mn`; strictly
above the upper bound saturates to distance 0; everything else (including
`r = mx`) becomes the `FFT_NO_SIGNAL` error code. -/
def distance_LUT1 (lut : ℤ → ℤ) (mn mx r : ℤ) : ℤ :=
  if r > mn ∧ r < mx then lut (r - mn)
  else if r > mx then 0
  else FFT_NO_SIGNAL

/-- Implements `void distance_LUT(void)`: converts both averaged pad magnitudes in
place into calibrated distances, using the per-pad bounds and tables
(`LPAD_LUT`/`RPAD_LUT` are the `#include`d CSV data, passed as the opaque
parameters `lutL`/`lutR`).  Bumps the ghost invocation counter. -/
def distance_LUT (lutL lutR : ℤ → ℤ) (s : CalcState) : CalcState :=
  { s with
    LPAD_FFT_distance := distance_LUT1 lutL LPAD_Min LPAD_Max s.LPAD_FFT_distance
    RPAD_FFT_distance := distance_LUT1 lutR RPAD_Min RPAD_Max s.RPAD_FFT_distance
    lut_runs := s.lut_runs + 1 }

/-! ## `averaging_FFT_semples` and `calculate_FFT` -/

/-- Implements `void averaging_FFT_semples(void)`: when the fill counter has reached
`num_of_samples - 1`, sum the first `num_of_samples` slots of each array,
divide by `num_of_samples`, publish the results, reset the counter and run
`distance_LUT`; otherwise just increment the counter.  The C code zeroes
the four `int32_t` accumulators, sums the `uint32_t` slots into them and
divides; for the (non-negative, in-`int32`-range) values involved this is
exactly truncating division of the slot sum, i.e. `ℕ` division. -/
def averaging_FFT_semples (lutL lutR : ℤ → ℤ) (s : CalcState) : CalcState :=
  if s.avg_counter = s.num_of_samples - 1 then
    distance_LUT lutL lutR
      { s with
        LPAD_FFT_distance :=
          (↑(slotSum s.LPAD_FFT_avg_array s.num_of_samples.toNat / s.num_of_samples.toNat) : ℤ)
        RPAD_FFT_distance :=
          (↑(slotSum s.RPAD_FFT_avg_array s.num_of_samples.toNat / s.num_of_samples.toNat) : ℤ)
        LHALL_FFT_voltage :=
          (↑(slotSum s.LHALL_FFT_avg_array s.num_of_samples.toNat / s.num_of_samples.toNat) : ℤ)
        RHALL_FFT_voltage :=
          (↑(slotSum s.RHALL_FFT_avg_array s.num_of_samples.toNat / s.num_of_samples.toNat) : ℤ)
        avg_counter := 0 }
  else { s with avg_counter := s.avg_counter + 1 }

/-- Implements `void calculate_FFT(void)`: stores this cycle's four tone magnitudes
into the averaging arrays at index `avg_counter` (the FFT/`hypot`
extraction itself consumes raw ADC buffers and is represented by the
`Tones` input) and calls `averaging_FFT_semples`. -/
def calculate_FFT (lutL lutR : ℤ → ℤ) (t : Tones) (s : CalcState) : CalcState :=
  averaging_FFT_semples lutL lutR
    { s with
      LPAD_FFT_avg_array := setSlot s.LPAD_FFT_avg_array s.avg_counter t.lpad
      RPAD_FFT_avg_array := setSlot s.RPAD_FFT_avg_array s.avg_counter t.rpad
      LHALL_FFT_avg_array := setSlot s.LHALL_FFT_avg_array s.avg_counter t.lhall
      RHALL_FFT_avg_array := setSlot s.RHALL_FFT_avg_array s.avg_counter t.rhall }

/-! ## The law-of-cosines quotients -/

/-- Value of a C `double` division whose operands are exact integers:
either a finite rational or one of the IEEE special values produced when
the denominator is 0. -/
inductive CosVal where
  | fin (q : ℚ)
  | posInf
  | negInf
  | nan
deriving DecidableEq

/-- Value of `(double)num / den` for integer `num`, `den`: IEEE division, with
`x/0 = +inf` for `x > 0`, `-inf` for `x < 0`, and `0/0 = NaN`. -/
def divD (num den : ℤ) : CosVal :=
  if den ≠ 0 then .fin ((num : ℚ) / (den : ℚ))
  else if num > 0 then .posInf
  else if num < 0 then .negInf
  else .nan

/-- The quotient `cos_beta = (LPAD² + PAD_SPACING² - RPAD²) / (2·LPAD·PAD_SPACING)`
(law of cosines, `calculate_pos` lines 191-194). -/
def cos_beta_val (L R : ℤ) : CosVal :=
  divD (L * L + PAD_SPACING * PAD_SPACING - R * R) (2 * L * PAD_SPACING)

/-- The quotient `cos_alpha = (RPAD² - LPAD² + PAD_SPACING²) / (2·RPAD·PAD_SPACING)`
(law of cosines, `calculate_pos` lines 196-199). -/
def cos_alpha_val (L R : ℤ) : CosVal :=
  divD (R * R - L * L + PAD_SPACING * PAD_SPACING) (2 * R * PAD_SPACING)

/-- IEEE result of `c <= 1`: false for `+inf` and `NaN`, true for `-inf`. -/
def CosVal.leOne : CosVal → Bool
  | .fin q => decide (q ≤ 1)
  | .posInf => false
  | .negInf => true
  | .nan => false

/-- IEEE result of `c > -1`: true for `+inf`, false for `-inf` and `NaN`. -/
def CosVal.gtNegOne : CosVal → Bool
  | .fin q => decide (-1 < q)
  | .posInf => true
  | .negInf => false
  | .nan => false

/-- Whether the division produced a finite value. -/
def CosVal.isFin : CosVal → Bool
  | .fin _ => true
  | _ => false

/-- The finite value of a `CosVal` (only ever used under the domain check,
which guarantees finiteness). -/
def CosVal.val : CosVal → ℚ
  | .fin q => q
  | _ => 0

/-- The arc-cosine domain check of `calculate_pos` line 201:
`cos_alpha <= 1 && cos_beta <= 1 && cos_alpha > -1 && cos_beta > -1`,
with IEEE comparison semantics for the special values. -/
def domainOKb (L R : ℤ) : Bool :=
  (cos_alpha_val L R).leOne && (cos_beta_val L R).leOne &&
    (cos_alpha_val L R).gtNegOne && (cos_beta_val L R).gtNegOne

/-! ## `calculate_current` and `check_display_bounderies` -/

/-- The value `calculate_current` stores into `current`, as a function of
the fields it reads.  Every path assigns `current`. -/
def calculate_current_val (Y : ℤ) (G : ℚ) (LH RH : ℤ) : ℚ :=
  if Y > 15 ∧ Y < 25 then
    if G < 15 ∧ G > -15 then
      (if RH > LH then (RH : ℚ) else (LH : ℚ)) * CURRENT_FACTOR * (Y : ℚ) / 1000
    else CURR_OUTOF_Angle_RANGE
  else CURR_OUTOF_Y_RANGE

/-- Implements `void calculate_current(void)` (lines 247-268).  Bumps the ghost
invocation counter. -/
def calculate_current (s : CalcState) : CalcState :=
  { s with
    current := calculate_current_val s.Y_Pos s.Gamma s.LHALL_FFT_voltage s.RHALL_FFT_voltage
    curr_runs := s.curr_runs + 1 }

/-- First clamp of `check_display_bounderies`: `if(fabs(X_Pos) > MAX_X_DISTANCE)`. -/
def clampX (x : ℤ) : ℤ :=
  if |x| > MAX_X_DISTANCE then CALC_OUTOF_X_RANGE else x

/-- Second clamp of `check_display_bounderies`: `if(Y_Pos > MAX_Y_DISTANCE)`. -/
def clampY (y : ℤ) : ℤ :=
  if y > MAX_Y_DISTANCE then CALC_OUTOF_Y_RANGE else y

/-- Implements `void check_display_bounderies(void)` (lines 275-284): the two clamps
are independent (the first writes only `X_Pos`, the second reads only
`Y_Pos`), so they are a simultaneous update. -/
def check_display_bounderies (s : CalcState) : CalcState :=
  { s with X_Pos := clampX s.X_Pos, Y_Pos := clampY s.Y_Pos }

/-! ## The position solver (body of `calculate_pos`) -/

/-- The libm-valued sub-expressions of the solver, abstracted.  Theorems
quantified over an arbitrary oracle hold in particular for the C
implementation:
* `xCase1 c d` = `(int) fabs(cos(acos c)·d - PAD_SPACING/2)` (case 1),
* `yCase1 c d` = `(int) (sin(acos c)·d)` (case 1),
* `xCase2 c d` = `(int) (cos(π - acos c)·d + PAD_SPACING/2)` (case 2),
* `yCase2 c d` = `(int) (sin(π - acos c)·d)` (case 2),
* `xCase3 c d`, `yCase3 c d` = the same expressions for case 3 applied to
  `cos_beta` and the left distance,
* `atan2q y x` = the double `atan2(y, x)` on the already-truncated `int`
  coordinates. -/
structure TrigOracle where
  xCase1 : ℚ → ℤ → ℤ
  yCase1 : ℚ → ℤ → ℤ
  xCase2 : ℚ → ℤ → ℤ
  yCase2 : ℚ → ℤ → ℤ
  xCase3 : ℚ → ℤ → ℤ
  yCase3 : ℚ → ℤ → ℤ
  atan2q : ℤ → ℤ → ℚ

/-- The three-way geometric case analysis of lines 206-217, translated via
the strict antitonicity of `acos` on `[-1,1]`:
`acos c < π/2 ↔ c > 0` and `acos c ≥ π/2 ↔ c ≤ 0`.  The fourth
(fall-through) case leaves `X_Pos`/`Y_Pos` at their incoming values `X0`,
`Y0`. -/
def solve_case (o : TrigOracle) (a b : ℚ) (dL dR X0 Y0 : ℤ) : ℤ × ℤ :=
  if a > 0 ∧ b > 0 then (o.xCase1 a dR, o.yCase1 a dR)
  else if a ≤ 0 ∧ b > 0 then (o.xCase2 a dR, o.yCase2 a dR)
  else if a > 0 ∧ b ≤ 0 then (o.xCase3 b dL, o.yCase3 b dL)
  else (X0, Y0)

/-- The part of `calculate_pos` guarded by the arc-cosine domain check
(lines 201-236): the geometric case analysis, `Gamma = atan2(Y_Pos, X_Pos)`
with the sign correction (`alpha < beta ↔ cos_alpha > cos_beta`, again by
antitonicity of `acos`), conversion to degrees, then `calculate_current()`
and `check_display_bounderies()`. -/
def solve_core (o : TrigOracle) (s : CalcState) : CalcState :=
  if domainOKb s.LPAD_FFT_distance s.RPAD_FFT_distance = true then
    let a := (cos_alpha_val s.LPAD_FFT_distance s.RPAD_FFT_distance).val
    let b := (cos_beta_val s.LPAD_FFT_distance s.RPAD_FFT_distance).val
    let p := solve_case o a b s.LPAD_FFT_distance s.RPAD_FFT_distance s.X_Pos s.Y_Pos
    let g := o.atan2q p.2 p.1
    let gam := if a > b then m_pi_half - g else g - m_pi_half
    let x2 := if a > b then -p.1 else p.1
    check_display_bounderies (calculate_current
      { s with X_Pos := x2, Y_Pos := p.2, Gamma := gam * rad_to_degree })
  else s

/-- The no-signal guard of line 189 wrapped around the solver body:
`if(LPAD_FFT_distance != FFT_NO_SIGNAL || RPAD_FFT_distance != FFT_NO_SIGNAL)`. -/
def solve (o : TrigOracle) (s : CalcState) : CalcState :=
  if s.LPAD_FFT_distance ≠ FFT_NO_SIGNAL ∨ s.RPAD_FFT_distance ≠ FFT_NO_SIGNAL then
    solve_core o s
  else s

/-! ## `calculate_pos`: one acquisition cycle -/

/-- The state reached inside a `MEAS_data_ready` cycle right after
`split_Array(); calculate_FFT(); clear_Buffer();`: the error-code defaults
have been written into `X_Pos`, `Y_Pos`, `Gamma` (lines 181-183),
`num_of_samples` has been set from the parameter (line 170), and the
averaging stage has run. -/
def afterFFT (lutL lutR : ℤ → ℤ) (W : ℤ) (t : Tones) (s : CalcState) : CalcState :=
  calculate_FFT lutL lutR t
    { s with
      num_of_samples := W
      X_Pos := CALC_OUTOF_X_RANGE
      Y_Pos := CALC_OUTOF_Y_RANGE
      Gamma := CALC_OUTOF_ANGLE_RANGE }

/-- Implements `void calculate_pos(int fft_avg_num)` (lines 168-240): one call of the
pipeline entry point.  `ready` is the `MEAS_data_ready` flag; when it is
unset only `num_of_samples` is written (the ADC timer calls touch no
modelled state). -/
def calculate_pos (o : TrigOracle) (lutL lutR : ℤ → ℤ) (W : ℤ) (ready : Bool)
    (t : Tones) (s : CalcState) : CalcState :=
  if ready then solve o (afterFFT lutL lutR W t s)
  else { s with num_of_samples := W }

/-- Run a sequence of `MEAS_data_ready` acquisition cycles with a fixed
window size `W`, feeding one `Tones` input per cycle. -/
def runReady (o : TrigOracle) (lutL lutR : ℤ → ℤ) (W : ℤ) (ts : List Tones)
    (s : CalcState) : CalcState :=
  ts.foldl (fun s t => calculate_pos o lutL lutR W true t s) s

/-- Run a sequence of `calculate_pos` calls with a fixed window size `W`,
each cycle carrying its `MEAS_data_ready` flag and tone inputs. -/
def runTrace (o : TrigOracle) (lutL lutR : ℤ → ℤ) (W : ℤ)
    (cs : List (Bool × Tones)) (s : CalcState) : CalcState :=
  cs.foldl (fun s c => calculate_pos o lutL lutR W c.1 c.2 s) s

/-! ## Pure characterisation of the solver outputs -/

/-- The `(X_Pos, Y_Pos, Gamma, current)` quadruple produced by `solve` as
a pure function of the fields it reads (`X0 Y0 G0 c0` are the incoming
values, returned unchanged on the guard-fail and domain-fail paths). -/
def solveFields (o : TrigOracle) (L R LH RH X0 Y0 : ℤ) (G0 c0 : ℚ) : ℤ × ℤ × ℚ × ℚ :=
  if L ≠ FFT_NO_SIGNAL ∨ R ≠ FFT_NO_SIGNAL then
    if domainOKb L R = true then
      let a := (cos_alpha_val L R).val
      let b := (cos_beta_val L R).val
      let p := solve_case o a b L R X0 Y0
      let g := o.atan2q p.2 p.1
      let gam := if a > b then m_pi_half - g else g - m_pi_half
      let x2 := if a > b then -p.1 else p.1
      (clampX x2, clampY p.2, gam * rad_to_degree,
        calculate_current_val p.2 (gam * rad_to_degree) LH RH)
    else (X0, Y0, G0, c0)
  else (X0, Y0, G0, c0)

/-- The published quadruple of a solver pass started from the cycle-start
defaults, as invoked by a window-filling acquisition cycle on freshly
calibrated distances `dL`, `dR` and averaged Hall readings `hL`, `hR`. -/
def solveOutputs (o : TrigOracle) (dL dR hL hR : ℤ) (c0 : ℚ) : ℤ × ℤ × ℚ × ℚ :=
  solveFields o dL dR hL hR CALC_OUTOF_X_RANGE CALC_OUTOF_Y_RANGE
    CALC_OUTOF_ANGLE_RANGE c0

/-! ## Concrete instances used by witnesses and counterexamples -/

/-- A concrete trigonometric oracle (any works: every claim theorem is
quantified over the oracle; witnesses just need one). -/
def oracle0 : TrigOracle where
  xCase1 := fun _ _ => 0
  yCase1 := fun _ _ => 20
  xCase2 := fun _ _ => 0
  yCase2 := fun _ _ => 20
  xCase3 := fun _ _ => 0
  yCase3 := fun _ _ => 20
  atan2q := fun _ _ => m_pi_half

/-- A concrete calibration table mapping every in-range magnitude to a
30 mm distance. -/
def lut30 : ℤ → ℤ := fun _ => 30

/-- A concrete all-zero calibration table. -/
def lut0 : ℤ → ℤ := fun _ => 0

/-- Tone magnitudes that calibrate to valid 30 mm distances on both pads
(`200 < 300 < 1458/1466`) with Hall readings 100 and 50. -/
def tonesGood : Tones := ⟨300, 300, 100, 50⟩

/-- Tone magnitudes that saturate the left pad (`2000 > LPAD_Max`, distance
coerced to 0) and leave the right pad below the floor (`100 ≤ RPAD_Min`,
no-signal). -/
def tonesMixed : Tones := ⟨2000, 100, 0, 0⟩

/-- Tone magnitudes below both calibration floors: both pads no-signal. -/
def tonesLow : Tones := ⟨100, 100, 0, 0⟩

/-! ## Helper lemmas -/

/-- The solver section `solve` only writes `X_Pos`, `Y_Pos`, `Gamma`, `current` and the ghost
`curr_runs`; every other field is preserved. -/
theorem solve_keeps (o : TrigOracle) (s : CalcState) :
    (solve o s).LPAD_FFT_avg_array = s.LPAD_FFT_avg_array ∧
    (solve o s).RPAD_FFT_avg_array = s.RPAD_FFT_avg_array ∧
    (solve o s).LHALL_FFT_avg_array = s.LHALL_FFT_avg_array ∧
    (solve o s).RHALL_FFT_avg_array = s.RHALL_FFT_avg_array ∧
    (solve o s).LPAD_FFT_distance = s.LPAD_FFT_distance ∧
    (solve o s).RPAD_FFT_distance = s.RPAD_FFT_distance ∧
    (solve o s).LHALL_FFT_voltage = s.LHALL_FFT_voltage ∧
    (solve o s).RHALL_FFT_voltage = s.RHALL_FFT_voltage ∧
    (solve o s).avg_counter = s.avg_counter ∧
    (solve o s).num_of_samples = s.num_of_samples ∧
    (solve o s).lut_runs = s.lut_runs := by
  unfold solve solve_core
  split_ifs <;> simp [check_display_bounderies, calculate_current]

/-- The published quadruple of `solve` is `solveFields` of the fields it
reads. -/
theorem solve_out (o : TrigOracle) (s : CalcState) :
    (solve o s).X_Pos = (solveFields o s.LPAD_FFT_distance s.RPAD_FFT_distance
        s.LHALL_FFT_voltage s.RHALL_FFT_voltage s.X_Pos s.Y_Pos s.Gamma s.current).1 ∧
    (solve o s).Y_Pos = (solveFields o s.LPAD_FFT_distance s.RPAD_FFT_distance
        s.LHALL_FFT_voltage s.RHALL_FFT_voltage s.X_Pos s.Y_Pos s.Gamma s.current).2.1 ∧
    (solve o s).Gamma = (solveFields o s.LPAD_FFT_distance s.RPAD_FFT_distance
        s.LHALL_FFT_voltage s.RHALL_FFT_voltage s.X_Pos s.Y_Pos s.Gamma s.current).2.2.1 ∧
    (solve o s).current = (solveFields o s.LPAD_FFT_distance s.RPAD_FFT_distance
        s.LHALL_FFT_voltage s.RHALL_FFT_voltage s.X_Pos s.Y_Pos s.Gamma s.current).2.2.2 := by
  unfold solve solve_core solveFields
  split_ifs <;> simp [check_display_bounderies, calculate_current]

/-- When the guard fails or the domain check fails, `solveFields` returns
its incoming values. -/
theorem solveFields_fail (o : TrigOracle) (L R LH RH X0 Y0 : ℤ) (G0 c0 : ℚ)
    (h : ¬(L ≠ FFT_NO_SIGNAL ∨ R ≠ FFT_NO_SIGNAL) ∨ ¬domainOKb L R = true) :
    solveFields o L R LH RH X0 Y0 G0 c0 = (X0, Y0, G0, c0) := by
  unfold solveFields
  rcases h with h | h
  · rw [if_neg h]
  · split_ifs <;> simp_all

/-- When the guard and the domain check both pass, the quadruple produced
by `solveFields` does not depend on the incoming `Gamma` and `current`. -/
theorem solveFields_pass_irrel (o : TrigOracle) (L R LH RH X0 Y0 : ℤ)
    (G0 G0' c0 c0' : ℚ)
    (hg : L ≠ FFT_NO_SIGNAL ∨ R ≠ FFT_NO_SIGNAL) (hd : domainOKb L R = true) :
    solveFields o L R LH RH X0 Y0 G0 c0 = solveFields o L R LH RH X0 Y0 G0' c0' := by
  unfold solveFields
  rw [if_pos hg, if_pos hg, if_pos hd, if_pos hd]

/-- The `X_Pos`, `Y_Pos` and `Gamma` components of `solveFields` never
depend on the incoming `current`. -/
theorem solveFields_xyg_irrel (o : TrigOracle) (L R LH RH X0 Y0 : ℤ)
    (G0 c0 c0' : ℚ) :
    (solveFields o L R LH RH X0 Y0 G0 c0).1 = (solveFields o L R LH RH X0 Y0 G0 c0').1 ∧
    (solveFields o L R LH RH X0 Y0 G0 c0).2.1 =
      (solveFields o L R LH RH X0 Y0 G0 c0').2.1 ∧
    (solveFields o L R LH RH X0 Y0 G0 c0).2.2.1 =
      (solveFields o L R LH RH X0 Y0 G0 c0').2.2.1 := by
  unfold solveFields
  split_ifs <;> simp

/-- If either the no-signal guard or the arc-cosine domain check fails,
the whole solver section is a no-op on the state. -/
theorem solve_noop (o : TrigOracle) (s : CalcState)
    (h : ¬(s.LPAD_FFT_distance ≠ FFT_NO_SIGNAL ∨ s.RPAD_FFT_distance ≠ FFT_NO_SIGNAL) ∨
         ¬domainOKb s.LPAD_FFT_distance s.RPAD_FFT_distance = true) :
    solve o s = s := by
  unfold solve solve_core
  rcases h with h | h
  · rw [if_neg h]
  · split_ifs <;> simp_all

/-- A non-window-filling acquisition cycle up to the end of
`calculate_FFT`: the tone magnitudes are stored, the counter is
incremented, everything else (beyond the cycle-start defaults) is kept. -/
theorem afterFFT_nonfill (lutL lutR : ℤ → ℤ) (W : ℤ) (t : Tones) (s : CalcState)
    (h : s.avg_counter ≠ W - 1) :
    afterFFT lutL lutR W t s =
      { s with
        LPAD_FFT_avg_array := setSlot s.LPAD_FFT_avg_array s.avg_counter t.lpad
        RPAD_FFT_avg_array := setSlot s.RPAD_FFT_avg_array s.avg_counter t.rpad
        LHALL_FFT_avg_array := setSlot s.LHALL_FFT_avg_array s.avg_counter t.lhall
        RHALL_FFT_avg_array := setSlot s.RHALL_FFT_avg_array s.avg_counter t.rhall
        X_Pos := CALC_OUTOF_X_RANGE
        Y_Pos := CALC_OUTOF_Y_RANGE
        Gamma := CALC_OUTOF_ANGLE_RANGE
        avg_counter := s.avg_counter + 1
        num_of_samples := W } := by
  simp [afterFFT, calculate_FFT, averaging_FFT_semples, h]

/-- A window-filling acquisition cycle up to the end of `calculate_FFT`:
the tone magnitudes are stored, the four slot averages are published, the
pad channels are pushed through `distance_LUT`, and the counter resets. -/
theorem afterFFT_fill (lutL lutR : ℤ → ℤ) (W : ℤ) (t : Tones) (s : CalcState)
    (h : s.avg_counter = W - 1) :
    afterFFT lutL lutR W t s =
      { s with
        LPAD_FFT_avg_array := setSlot s.LPAD_FFT_avg_array s.avg_counter t.lpad
        RPAD_FFT_avg_array := setSlot s.RPAD_FFT_avg_array s.avg_counter t.rpad
        LHALL_FFT_avg_array := setSlot s.LHALL_FFT_avg_array s.avg_counter t.lhall
        RHALL_FFT_avg_array := setSlot s.RHALL_FFT_avg_array s.avg_counter t.rhall
        LPAD_FFT_distance := distance_LUT1 lutL LPAD_Min LPAD_Max
          (↑(slotSum (setSlot s.LPAD_FFT_avg_array s.avg_counter t.lpad) W.toNat / W.toNat))
        RPAD_FFT_distance := distance_LUT1 lutR RPAD_Min RPAD_Max
          (↑(slotSum (setSlot s.RPAD_FFT_avg_array s.avg_counter t.rpad) W.toNat / W.toNat))
        LHALL_FFT_voltage :=
          (↑(slotSum (setSlot s.LHALL_FFT_avg_array s.avg_counter t.lhall) W.toNat / W.toNat) : ℤ)
        RHALL_FFT_voltage :=
          (↑(slotSum (setSlot s.RHALL_FFT_avg_array s.avg_counter t.rhall) W.toNat / W.toNat) : ℤ)
        X_Pos := CALC_OUTOF_X_RANGE
        Y_Pos := CALC_OUTOF_Y_RANGE
        Gamma := CALC_OUTOF_ANGLE_RANGE
        avg_counter := 0
        num_of_samples := W
        lut_runs := s.lut_runs + 1 } := by
  simp [afterFFT, calculate_FFT, averaging_FFT_semples, distance_LUT, h]

/-- The cycle-start defaults survive `calculate_FFT` untouched: right
before the solver section, `X_Pos`, `Y_Pos` and `Gamma` hold the error
codes and `current` (and its ghost counter) are still the previous
cycle's. -/
theorem afterFFT_defaults (lutL lutR : ℤ → ℤ) (W : ℤ) (t : Tones) (s : CalcState) :
    (afterFFT lutL lutR W t s).X_Pos = CALC_OUTOF_X_RANGE ∧
    (afterFFT lutL lutR W t s).Y_Pos = CALC_OUTOF_Y_RANGE ∧
    (afterFFT lutL lutR W t s).Gamma = CALC_OUTOF_ANGLE_RANGE ∧
    (afterFFT lutL lutR W t s).current = s.current ∧
    (afterFFT lutL lutR W t s).curr_runs = s.curr_runs := by
  by_cases h : s.avg_counter = W - 1
  · rw [afterFFT_fill lutL lutR W t s h]
    simp
  · rw [afterFFT_nonfill lutL lutR W t s h]
    simp

/-- A ready cycle is the solver section applied to the post-`calculate_FFT`
state. -/
theorem calculate_pos_ready (o : TrigOracle) (lutL lutR : ℤ → ℤ) (W : ℤ)
    (t : Tones) (s : CalcState) :
    calculate_pos o lutL lutR W true t s = solve o (afterFFT lutL lutR W t s) := rfl

/-! ## Claim C2: calibration lookup branches -/

/-- C2 counterexample: at the boundary magnitude `r = LPAD_Max` the claim
says the published distance is 0 (saturation), but `distance_LUT` takes
neither the table branch (`r < Max` fails) nor the saturation branch
(`r > Max` fails) and falls through to the `no_signal` error code.  (The
table contents are irrelevant on this path; the identity table is used.) -/
theorem C2_counterexample :
    distance_LUT1 (fun i => i) LPAD_Min LPAD_Max LPAD_Max = FFT_NO_SIGNAL ∧
    distance_LUT1 (fun i => i) LPAD_Min LPAD_Max LPAD_Max ≠ 0 := by
  decide

/-- C2 (amended): for a calibration table with bounds `Min < Max`, a
magnitude strictly between the bounds is looked up at offset `r - Min`; a
magnitude strictly above `Max` saturates to distance 0; a magnitude at or
below `Min` — and also exactly at `Max` — publishes the `no_signal`
code. -/
theorem C2_theorem (lut : ℤ → ℤ) (mn mx r : ℤ) (hb : mn < mx) :
    (mn < r ∧ r < mx → distance_LUT1 lut mn mx r = lut (r - mn)) ∧
    (r > mx → distance_LUT1 lut mn mx r = 0) ∧
    (r = mx → distance_LUT1 lut mn mx r = FFT_NO_SIGNAL) ∧
    (r ≤ mn → distance_LUT1 lut mn mx r = FFT_NO_SIGNAL) := by
  unfold distance_LUT1
  refine ⟨fun h => ?_, fun h => ?_, fun h => ?_, fun h => ?_⟩ <;>
    split_ifs <;> first | rfl | omega

/-- C2 witness: the three reachable branches of the amended claim at the
left pad's bounds: an in-range magnitude 300 reads the table, 2000
saturates to 0, and 100 is below the floor. -/
theorem C2_witness :
    distance_LUT1 (fun i => i + 7) LPAD_Min LPAD_Max 300 = 107 ∧
    distance_LUT1 (fun i => i + 7) LPAD_Min LPAD_Max 2000 = 0 ∧
    distance_LUT1 (fun i => i + 7) LPAD_Min LPAD_Max 100 = FFT_NO_SIGNAL :=
  ⟨((C2_theorem (fun i => i + 7) LPAD_Min LPAD_Max 300 (by decide)).1
      ⟨by decide, by decide⟩).trans (by decide),
   (C2_theorem (fun i => i + 7) LPAD_Min LPAD_Max 2000 (by decide)).2.1 (by decide),
   (C2_theorem (fun i => i + 7) LPAD_Min LPAD_Max 100 (by decide)).2.2.2 (by decide)⟩

/-! ## Claim C5: the current estimator -/

/-- C5: whenever `Y_Pos ∈ (15,25)` and `Gamma ∈ (-15,15)`, the computed
current is `max(hallLeft, hallRight) · CURRENT_FACTOR · Y_Pos / 1000`;
whenever `Y_Pos` is outside `(15,25)` the current is the Y-range error
code regardless of the angle; whenever `Y_Pos` is in range but `Gamma` is
outside `(-15,15)` the current is the angle-range error code. -/
theorem C5_theorem (s : CalcState) :
    ((s.Y_Pos > 15 ∧ s.Y_Pos < 25) →
      ((s.Gamma < 15 ∧ s.Gamma > -15) →
        (calculate_current s).current =
          (↑(max s.LHALL_FFT_voltage s.RHALL_FFT_voltage) : ℚ) * CURRENT_FACTOR *
            (↑s.Y_Pos : ℚ) / 1000) ∧
      (¬(s.Gamma < 15 ∧ s.Gamma > -15) →
        (calculate_current s).current = CURR_OUTOF_Angle_RANGE)) ∧
    (¬(s.Y_Pos > 15 ∧ s.Y_Pos < 25) →
      (calculate_current s).current = CURR_OUTOF_Y_RANGE) := by
  unfold calculate_current calculate_current_val
  refine ⟨fun hy => ⟨fun hg => ?_, fun hg => ?_⟩, fun hy => ?_⟩
  · simp only [if_pos hy, if_pos hg]
    rcases lt_or_ge s.LHALL_FFT_voltage s.RHALL_FFT_voltage with h | h
    · rw [if_pos h, max_eq_right h.le]
    · rw [if_neg (not_lt.mpr h), max_eq_left h]
  · simp [if_pos hy, if_neg hg]
  · simp [if_neg hy]

/-- C5 witness: `Y = 20`, `Gamma = 0`, `hallLeft = 100`, `hallRight = 50`
gives `current = 100 · 0.357 · 20 / 1000 = 0.714`. -/
theorem C5_witness :
    (calculate_current { initState with
        Y_Pos := 20, Gamma := 0,
        LHALL_FFT_voltage := 100, RHALL_FFT_voltage := 50 }).current = 714 / 1000 :=
  (((C5_theorem { initState with
        Y_Pos := 20, Gamma := 0,
        LHALL_FFT_voltage := 100, RHALL_FFT_voltage := 50 }).1
      ⟨by decide, by decide⟩).1 ⟨by decide, by decide⟩).trans
    (by norm_num [CURRENT_FACTOR])

/-! ## Claim C8: the permissive no-signal guard -/

/-- C8: the position solver proceeds unless both pad distances are
`no_signal` simultaneously.  When exactly one distance is the `no_signal`
code, the whole post-guard computation (`solve_core`, which feeds the
sentinel value numerically into the law-of-cosines quotients) still runs;
only when both are `no_signal` is the triangulation skipped entirely,
leaving the state untouched. -/
theorem C8_theorem (o : TrigOracle) (s : CalcState) :
    ((s.LPAD_FFT_distance = FFT_NO_SIGNAL ∧ s.RPAD_FFT_distance ≠ FFT_NO_SIGNAL) ∨
     (s.LPAD_FFT_distance ≠ FFT_NO_SIGNAL ∧ s.RPAD_FFT_distance = FFT_NO_SIGNAL) →
      solve o s = solve_core o s) ∧
    (s.LPAD_FFT_distance = FFT_NO_SIGNAL ∧ s.RPAD_FFT_distance = FFT_NO_SIGNAL →
      solve o s = s) := by
  constructor
  · intro h
    unfold solve
    rw [if_pos (by tauto)]
  · intro h
    unfold solve
    rw [if_neg (by simp [h.1, h.2])]

/-- C8 witness: with the left distance at `no_signal` and the right at a
valid 30 mm the solver body runs; with both at `no_signal` the state is
returned unchanged. -/
theorem C8_witness :
    solve oracle0 { initState with
        LPAD_FFT_distance := FFT_NO_SIGNAL, RPAD_FFT_distance := 30 } =
      solve_core oracle0 { initState with
        LPAD_FFT_distance := FFT_NO_SIGNAL, RPAD_FFT_distance := 30 } ∧
    solve oracle0 { initState with
        LPAD_FFT_distance := FFT_NO_SIGNAL, RPAD_FFT_distance := FFT_NO_SIGNAL } =
      { initState with
        LPAD_FFT_distance := FFT_NO_SIGNAL, RPAD_FFT_distance := FFT_NO_SIGNAL } :=
  ⟨(C8_theorem oracle0 _).1 (Or.inl ⟨rfl, by decide⟩),
   (C8_theorem oracle0 _).2 ⟨rfl, rfl⟩⟩

/-! ## Claim C9: the fill counter stays within the capacity-3 arrays -/

/-- One `calculate_pos` call preserves `0 ≤ avg_counter ≤ W - 1` when the
window size `W ∈ {1,2,3}` is the one supplied. -/
theorem counter_inv_step (o : TrigOracle) (lutL lutR : ℤ → ℤ) (W : ℤ)
    (ready : Bool) (t : Tones) (s : CalcState)
    (hW : W = 1 ∨ W = 2 ∨ W = 3)
    (h0 : 0 ≤ s.avg_counter) (h1 : s.avg_counter ≤ W - 1) :
    0 ≤ (calculate_pos o lutL lutR W ready t s).avg_counter ∧
    (calculate_pos o lutL lutR W ready t s).avg_counter ≤ W - 1 := by
  cases ready
  · simpa [calculate_pos] using ⟨h0, h1⟩
  · rw [calculate_pos_ready]
    obtain ⟨-, -, -, -, -, -, -, -, hk, -, -⟩ :=
      solve_keeps o (afterFFT lutL lutR W t s)
    rw [hk]
    by_cases hc : s.avg_counter = W - 1
    · rw [afterFFT_fill lutL lutR W t s hc]
      rcases hW with rfl | rfl | rfl <;> simp
    · rw [afterFFT_nonfill lutL lutR W t s hc]
      simp only
      omega

/-- C9: if the same window size `W ∈ {1,2,3}` is supplied on every call
since startup, the shared fill counter satisfies `0 ≤ avg_counter ≤ W - 1`
in every reachable state, hence `avg_counter < 3`: the accumulator write
`*_FFT_avg_array[avg_counter]` performed by the next ready cycle is always
inside the fixed capacity-3 arrays. -/
theorem C9_theorem (o : TrigOracle) (lutL lutR : ℤ → ℤ) (W : ℤ)
    (cs : List (Bool × Tones)) (hW : W = 1 ∨ W = 2 ∨ W = 3) :
    0 ≤ (runTrace o lutL lutR W cs initState).avg_counter ∧
    (runTrace o lutL lutR W cs initState).avg_counter ≤ W - 1 ∧
    (runTrace o lutL lutR W cs initState).avg_counter < 3 := by
  have main : ∀ (l : List (Bool × Tones)) (s : CalcState),
      0 ≤ s.avg_counter → s.avg_counter ≤ W - 1 →
      0 ≤ (runTrace o lutL lutR W l s).avg_counter ∧
        (runTrace o lutL lutR W l s).avg_counter ≤ W - 1 := by
    intro l
    induction l with
    | nil => intro s h0 h1; simpa [runTrace] using ⟨h0, h1⟩
    | cons c rest ih =>
        intro s h0 h1
        have hstep := counter_inv_step o lutL lutR W c.1 c.2 s hW h0 h1
        simpa [runTrace, List.foldl] using ih _ hstep.1 hstep.2
  have h := main cs initState (by simp [initState])
    (by rcases hW with rfl | rfl | rfl <;> simp [initState])
  exact ⟨h.1, h.2, by omega⟩

/-- C9 witness: a concrete two-call trace with `W = 2`. -/
theorem C9_witness :
    0 ≤ (runTrace oracle0 lut0 lut0 2 [(true, tonesGood), (true, tonesLow)]
        initState).avg_counter ∧
    (runTrace oracle0 lut0 lut0 2 [(true, tonesGood), (true, tonesLow)]
        initState).avg_counter ≤ 2 - 1 ∧
    (runTrace oracle0 lut0 lut0 2 [(true, tonesGood), (true, tonesLow)]
        initState).avg_counter < 3 :=
  C9_theorem oracle0 lut0 lut0 2 [(true, tonesGood), (true, tonesLow)]
    (Or.inr (Or.inl rfl))

/-! ## Claims C7 and C10: the law-of-cosines quotients -/

/-- A division by the integer 0 yields an IEEE special value, and such a
value never passes both halves of the arc-cosine domain check. -/
theorem divD_zero_bad (n : ℤ) :
    (divD n 0).isFin = false ∧ ((divD n 0).leOne && (divD n 0).gtNegOne) = false := by
  unfold divD
  split_ifs <;> simp_all [CosVal.isFin, CosVal.leOne, CosVal.gtNegOne]

/-- A left distance of 0 makes the `cos_beta` denominator `2·0·PAD_SPACING`
vanish. -/
theorem cos_beta_val_zero (R : ℤ) :
    cos_beta_val 0 R =
      divD (0 * 0 + PAD_SPACING * PAD_SPACING - R * R) 0 := by
  unfold cos_beta_val
  congr 1

/-- A right distance of 0 makes the `cos_alpha` denominator
`2·0·PAD_SPACING` vanish. -/
theorem cos_alpha_val_zero (L : ℤ) :
    cos_alpha_val L 0 =
      divD (0 * 0 - L * L + PAD_SPACING * PAD_SPACING) 0 := by
  unfold cos_alpha_val
  congr 1

/-- If `cos_beta` fails its half of the check, the whole domain check
fails. -/
theorem domainOKb_false_of_beta (L R : ℤ)
    (h : ((cos_beta_val L R).leOne && (cos_beta_val L R).gtNegOne) = false) :
    domainOKb L R = false := by
  unfold domainOKb
  cases h1 : (cos_beta_val L R).leOne <;> cases h2 : (cos_beta_val L R).gtNegOne <;>
    simp_all

/-- If `cos_alpha` fails its half of the check, the whole domain check
fails. -/
theorem domainOKb_false_of_alpha (L R : ℤ)
    (h : ((cos_alpha_val L R).leOne && (cos_alpha_val L R).gtNegOne) = false) :
    domainOKb L R = false := by
  unfold domainOKb
  cases h1 : (cos_alpha_val L R).leOne <;> cases h2 : (cos_alpha_val L R).gtNegOne <;>
    simp_all

/-- C7: the fourth triangulation case is unreachable.  For every pair of
(physical, hence non-negative) pad distances that passes the no-signal
guard and whose two law-of-cosines quotients both lie in `(-1, 1]`, it is
not the case that both arc-cosines are at least 90° (`acos c ≥ π/2 ↔
c ≤ 0`), and exactly the sign pattern of one of the three handled
geometric cases holds, so the case-analysis fall-through never executes. -/
theorem C7_theorem (L R : ℤ) (hL : 0 ≤ L) (hR : 0 ≤ R)
    (hg : L ≠ FFT_NO_SIGNAL ∨ R ≠ FFT_NO_SIGNAL)
    (hd : domainOKb L R = true) :
    ¬((cos_alpha_val L R).val ≤ 0 ∧ (cos_beta_val L R).val ≤ 0) ∧
    (((cos_alpha_val L R).val > 0 ∧ (cos_beta_val L R).val > 0) ∨
     ((cos_alpha_val L R).val ≤ 0 ∧ (cos_beta_val L R).val > 0) ∨
     ((cos_alpha_val L R).val > 0 ∧ (cos_beta_val L R).val ≤ 0)) := by
  simp only [domainOKb, Bool.and_eq_true] at hd
  obtain ⟨⟨⟨ha1, hb1⟩, ha2⟩, hb2⟩ := hd
  have hR0 : R ≠ 0 := by
    rintro rfl
    rw [cos_alpha_val_zero] at ha1 ha2
    exact absurd (divD_zero_bad (0 * 0 - L * L + PAD_SPACING * PAD_SPACING)).2
      (by rw [ha1, ha2]; decide)
  have hL0 : L ≠ 0 := by
    rintro rfl
    rw [cos_beta_val_zero] at hb1 hb2
    exact absurd (divD_zero_bad (0 * 0 + PAD_SPACING * PAD_SPACING - R * R)).2
      (by rw [hb1, hb2]; decide)
  have hRpos : 0 < R := lt_of_le_of_ne hR (Ne.symm hR0)
  have hLpos : 0 < L := lt_of_le_of_ne hL (Ne.symm hL0)
  have hdenR : (2 * R * PAD_SPACING : ℤ) ≠ 0 := by unfold PAD_SPACING; omega
  have hdenL : (2 * L * PAD_SPACING : ℤ) ≠ 0 := by unfold PAD_SPACING; omega
  have hva : (cos_alpha_val L R).val =
      ((R * R - L * L + PAD_SPACING * PAD_SPACING : ℤ) : ℚ) /
        ((2 * R * PAD_SPACING : ℤ) : ℚ) := by
    unfold cos_alpha_val divD
    rw [if_pos hdenR]
    rfl
  have hvb : (cos_beta_val L R).val =
      ((L * L + PAD_SPACING * PAD_SPACING - R * R : ℤ) : ℚ) /
        ((2 * L * PAD_SPACING : ℤ) : ℚ) := by
    unfold cos_beta_val divD
    rw [if_pos hdenL]
    rfl
  have hposR : (0 : ℚ) < ((2 * R * PAD_SPACING : ℤ) : ℚ) := by
    have : (0 : ℤ) < 2 * R * PAD_SPACING := by unfold PAD_SPACING; omega
    exact_mod_cast this
  have hposL : (0 : ℚ) < ((2 * L * PAD_SPACING : ℤ) : ℚ) := by
    have : (0 : ℤ) < 2 * L * PAD_SPACING := by unfold PAD_SPACING; omega
    exact_mod_cast this
  have key : ¬((cos_alpha_val L R).val ≤ 0 ∧ (cos_beta_val L R).val ≤ 0) := by
    rintro ⟨hca, hcb⟩
    rw [hva] at hca
    rw [hvb] at hcb
    have hA : (R * R - L * L + PAD_SPACING * PAD_SPACING : ℤ) ≤ 0 := by
      rcases div_nonpos_iff.mp hca with ⟨-, hb⟩ | ⟨ha, -⟩
      · linarith
      · exact_mod_cast ha
    have hB : (L * L + PAD_SPACING * PAD_SPACING - R * R : ℤ) ≤ 0 := by
      rcases div_nonpos_iff.mp hcb with ⟨-, hb⟩ | ⟨ha, -⟩
      · linarith
      · exact_mod_cast ha
    have hposPS : (0 : ℤ) < PAD_SPACING * PAD_SPACING := by decide
    linarith
  refine ⟨key, ?_⟩
  rcases le_or_lt (cos_alpha_val L R).val 0 with ha | ha <;>
    rcases le_or_lt (cos_beta_val L R).val 0 with hb | hb
  · exact absurd ⟨ha, hb⟩ key
  · exact Or.inr (Or.inl ⟨ha, hb⟩)
  · exact Or.inr (Or.inr ⟨ha, hb⟩)
  · exact Or.inl ⟨ha, hb⟩

/-- C7 witness: the equidistant configuration `dL = dR = 50` passes the
domain check (`cos_alpha = cos_beta = 1/2`) and lands in the first
geometric case. -/
theorem C7_witness :
    ¬((cos_alpha_val 50 50).val ≤ 0 ∧ (cos_beta_val 50 50).val ≤ 0) ∧
    (((cos_alpha_val 50 50).val > 0 ∧ (cos_beta_val 50 50).val > 0) ∨
     ((cos_alpha_val 50 50).val ≤ 0 ∧ (cos_beta_val 50 50).val > 0) ∨
     ((cos_alpha_val 50 50).val > 0 ∧ (cos_beta_val 50 50).val ≤ 0)) :=
  C7_theorem 50 50 (by decide) (by decide) (Or.inl (by decide))
    (by with_unfolding_all decide)

/-- C10: a saturated pad never yields a valid position.  If after the
calibration stage either pad distance is 0, the corresponding
law-of-cosines quotient divides by `2·0·PAD_SPACING = 0` and is not
finite, the arc-cosine domain check therefore fails, and the cycle
publishes the out-of-range codes in `X_Pos`, `Y_Pos`, `Gamma` while the
current estimator is not invoked — no undefined result escapes to the
outputs. -/
theorem C10_theorem (o : TrigOracle) (lutL lutR : ℤ → ℤ) (W : ℤ) (t : Tones)
    (s : CalcState)
    (h : (afterFFT lutL lutR W t s).LPAD_FFT_distance = 0 ∨
         (afterFFT lutL lutR W t s).RPAD_FFT_distance = 0) :
    ((cos_beta_val (afterFFT lutL lutR W t s).LPAD_FFT_distance
        (afterFFT lutL lutR W t s).RPAD_FFT_distance).isFin = false ∨
     (cos_alpha_val (afterFFT lutL lutR W t s).LPAD_FFT_distance
        (afterFFT lutL lutR W t s).RPAD_FFT_distance).isFin = false) ∧
    domainOKb (afterFFT lutL lutR W t s).LPAD_FFT_distance
      (afterFFT lutL lutR W t s).RPAD_FFT_distance = false ∧
    (calculate_pos o lutL lutR W true t s).X_Pos = CALC_OUTOF_X_RANGE ∧
    (calculate_pos o lutL lutR W true t s).Y_Pos = CALC_OUTOF_Y_RANGE ∧
    (calculate_pos o lutL lutR W true t s).Gamma = CALC_OUTOF_ANGLE_RANGE ∧
    (calculate_pos o lutL lutR W true t s).current = s.current ∧
    (calculate_pos o lutL lutR W true t s).curr_runs = s.curr_runs := by
  have hbad : ((cos_beta_val (afterFFT lutL lutR W t s).LPAD_FFT_distance
        (afterFFT lutL lutR W t s).RPAD_FFT_distance).isFin = false ∨
      (cos_alpha_val (afterFFT lutL lutR W t s).LPAD_FFT_distance
        (afterFFT lutL lutR W t s).RPAD_FFT_distance).isFin = false) ∧
      domainOKb (afterFFT lutL lutR W t s).LPAD_FFT_distance
        (afterFFT lutL lutR W t s).RPAD_FFT_distance = false := by
    rcases h with h | h
    · rw [h, cos_beta_val_zero]
      have hb := divD_zero_bad
        (0 * 0 + PAD_SPACING * PAD_SPACING -
          (afterFFT lutL lutR W t s).RPAD_FFT_distance *
            (afterFFT lutL lutR W t s).RPAD_FFT_distance)
      exact ⟨Or.inl hb.1,
        domainOKb_false_of_beta _ _ (by rw [cos_beta_val_zero]; exact hb.2)⟩
    · rw [h, cos_alpha_val_zero]
      have hb := divD_zero_bad
        (0 * 0 - (afterFFT lutL lutR W t s).LPAD_FFT_distance *
            (afterFFT lutL lutR W t s).LPAD_FFT_distance +
          PAD_SPACING * PAD_SPACING)
      exact ⟨Or.inr hb.1,
        domainOKb_false_of_alpha _ _ (by rw [cos_alpha_val_zero]; exact hb.2)⟩
  refine ⟨hbad.1, hbad.2, ?_⟩
  rw [calculate_pos_ready, solve_noop o _ (Or.inr (by simp [hbad.2]))]
  exact afterFFT_defaults lutL lutR W t s

/-- C10 witness: a single ready cycle with `W = 1` whose left-pad tone
magnitude 2000 exceeds `LPAD_Max`, so the calibrated left distance is
coerced to 0 while the right pad calibrates to a valid 30 mm. -/
theorem C10_witness :
    ((cos_beta_val (afterFFT lut30 lut30 1 ⟨2000, 300, 0, 0⟩ initState).LPAD_FFT_distance
        (afterFFT lut30 lut30 1 ⟨2000, 300, 0, 0⟩ initState).RPAD_FFT_distance).isFin = false ∨
     (cos_alpha_val (afterFFT lut30 lut30 1 ⟨2000, 300, 0, 0⟩ initState).LPAD_FFT_distance
        (afterFFT lut30 lut30 1 ⟨2000, 300, 0, 0⟩ initState).RPAD_FFT_distance).isFin = false) ∧
    domainOKb (afterFFT lut30 lut30 1 ⟨2000, 300, 0, 0⟩ initState).LPAD_FFT_distance
      (afterFFT lut30 lut30 1 ⟨2000, 300, 0, 0⟩ initState).RPAD_FFT_distance = false ∧
    (calculate_pos oracle0 lut30 lut30 1 true ⟨2000, 300, 0, 0⟩ initState).X_Pos =
      CALC_OUTOF_X_RANGE ∧
    (calculate_pos oracle0 lut30 lut30 1 true ⟨2000, 300, 0, 0⟩ initState).Y_Pos =
      CALC_OUTOF_Y_RANGE ∧
    (calculate_pos oracle0 lut30 lut30 1 true ⟨2000, 300, 0, 0⟩ initState).Gamma =
      CALC_OUTOF_ANGLE_RANGE ∧
    (calculate_pos oracle0 lut30 lut30 1 true ⟨2000, 300, 0, 0⟩ initState).current =
      initState.current ∧
    (calculate_pos oracle0 lut30 lut30 1 true ⟨2000, 300, 0, 0⟩ initState).curr_runs =
      initState.curr_runs :=
  C10_theorem oracle0 lut30 lut30 1 ⟨2000, 300, 0, 0⟩ initState (Or.inl (by decide))

/-! ## Concrete acquisition cycles used by counterexamples and witnesses -/

/-- A complete valid acquisition cycle from startup: window size 1, both
pads calibrate to 30 mm, the solve succeeds (`cos_alpha = cos_beta = 5/6`)
and the current estimator publishes `0.714` A. -/
def cycleA : CalcState := calculate_pos oracle0 lut30 lut30 1 true tonesGood initState

/-- A follow-up cycle that saturates the left pad (distance coerced to 0)
and starves the right pad (no-signal): the guard passes but the arc-cosine
domain check fails. -/
def cycleB_mixed : CalcState := calculate_pos oracle0 lut30 lut30 1 true tonesMixed cycleA

/-- A follow-up cycle with both pads below the calibration floor: both
distances are `no_signal` and the solve is skipped. -/
def cycleB_low : CalcState := calculate_pos oracle0 lut30 lut30 1 true tonesLow cycleA

/-- A follow-up cycle with window size 3 starting at fill index 0: it does
not fill the window, yet re-runs the solver on the stale distances. -/
def cycleC : CalcState := calculate_pos oracle0 lut30 lut30 3 true tonesLow cycleA

/-! ## Claim C1: behaviour on an arc-cosine domain-check failure -/

/-- C1 counterexample: the claim says a cycle whose arc-cosine domain
check fails leaves the published X, Y and Gamma equal to their values from
before the call.  After the valid cycle `cycleA` (X = 0, Y = 20,
Gamma = 0), the cycle `cycleB_mixed` passes the no-signal guard, fails the
domain check, and publishes X = 2333, Y = 2222, Gamma = 2444 — all three
differ from their prior values. -/
theorem C1_counterexample :
    cycleA.X_Pos = 0 ∧ cycleA.Y_Pos = 20 ∧ cycleA.Gamma = 0 ∧
    ((afterFFT lut30 lut30 1 tonesMixed cycleA).LPAD_FFT_distance ≠ FFT_NO_SIGNAL ∨
     (afterFFT lut30 lut30 1 tonesMixed cycleA).RPAD_FFT_distance ≠ FFT_NO_SIGNAL) ∧
    domainOKb (afterFFT lut30 lut30 1 tonesMixed cycleA).LPAD_FFT_distance
      (afterFFT lut30 lut30 1 tonesMixed cycleA).RPAD_FFT_distance = false ∧
    cycleB_mixed.X_Pos ≠ cycleA.X_Pos ∧
    cycleB_mixed.Y_Pos ≠ cycleA.Y_Pos ∧
    cycleB_mixed.Gamma ≠ cycleA.Gamma := by
  with_unfolding_all decide

/-- C1 (amended): in a ready cycle that passes the no-signal guard but
fails the arc-cosine domain check, the estimate is marked invalid by
publishing the range-error codes — `X_Pos = CALC_OUTOF_X_RANGE`,
`Y_Pos = CALC_OUTOF_Y_RANGE`, `Gamma = CALC_OUTOF_ANGLE_RANGE`, written as
defaults at the start of the cycle — rather than retaining the prior
`PositionEstimate`; only the `current` field (whose estimator is not
invoked) retains its previous value. -/
theorem C1_theorem (o : TrigOracle) (lutL lutR : ℤ → ℤ) (W : ℤ) (t : Tones)
    (s : CalcState)
    (hg : (afterFFT lutL lutR W t s).LPAD_FFT_distance ≠ FFT_NO_SIGNAL ∨
          (afterFFT lutL lutR W t s).RPAD_FFT_distance ≠ FFT_NO_SIGNAL)
    (hd : domainOKb (afterFFT lutL lutR W t s).LPAD_FFT_distance
            (afterFFT lutL lutR W t s).RPAD_FFT_distance = false) :
    (calculate_pos o lutL lutR W true t s).X_Pos = CALC_OUTOF_X_RANGE ∧
    (calculate_pos o lutL lutR W true t s).Y_Pos = CALC_OUTOF_Y_RANGE ∧
    (calculate_pos o lutL lutR W true t s).Gamma = CALC_OUTOF_ANGLE_RANGE ∧
    (calculate_pos o lutL lutR W true t s).current = s.current ∧
    (calculate_pos o lutL lutR W true t s).curr_runs = s.curr_runs := by
  rw [calculate_pos_ready, solve_noop o _ (Or.inr (by simp [hd]))]
  exact afterFFT_defaults lutL lutR W t s

/-- C1 witness: the amended claim applied to the concrete domain-check
failure cycle `cycleB_mixed`. -/
theorem C1_witness :
    cycleB_mixed.X_Pos = CALC_OUTOF_X_RANGE ∧
    cycleB_mixed.Y_Pos = CALC_OUTOF_Y_RANGE ∧
    cycleB_mixed.Gamma = CALC_OUTOF_ANGLE_RANGE ∧
    cycleB_mixed.current = cycleA.current ∧
    cycleB_mixed.curr_runs = cycleA.curr_runs :=
  C1_theorem oracle0 lut30 lut30 1 tonesMixed cycleA
    (by with_unfolding_all decide) (by with_unfolding_all decide)

/-! ## Claim C4: failure encoding and the stale current field -/

/-- C4 counterexample: the claim says that whenever the position solve
does not succeed, the current field holds one of the two current-error
codes rather than a stale numeric value.  After the valid cycle `cycleA`
(current = 0.714 A), the cycle `cycleB_low` fails the solve (both
distances `no_signal`), yet `current` still holds the stale numeric 0.714
from the earlier cycle and neither current-error code. -/
theorem C4_counterexample :
    cycleA.curr_runs = 1 ∧ cycleA.current = 357 / 500 ∧
    cycleB_low.LPAD_FFT_distance = FFT_NO_SIGNAL ∧
    cycleB_low.RPAD_FFT_distance = FFT_NO_SIGNAL ∧
    cycleB_low.current = cycleA.current ∧
    cycleB_low.current ≠ CURR_OUTOF_Y_RANGE ∧
    cycleB_low.current ≠ CURR_OUTOF_Angle_RANGE := by
  with_unfolding_all decide

/-- C4 (amended): stage failures are encoded as sentinel codes in the
failing stage's own output fields — in a cycle whose position solve does
not succeed (the no-signal guard or the domain check fails), `X_Pos`,
`Y_Pos` and `Gamma` hold their range-error codes — but the current
estimator is then not invoked at all, and the `current` field retains its
value from the previous cycle instead of holding a current-error code. -/
theorem C4_theorem (o : TrigOracle) (lutL lutR : ℤ → ℤ) (W : ℤ) (t : Tones)
    (s : CalcState)
    (h : ¬(((afterFFT lutL lutR W t s).LPAD_FFT_distance ≠ FFT_NO_SIGNAL ∨
            (afterFFT lutL lutR W t s).RPAD_FFT_distance ≠ FFT_NO_SIGNAL) ∧
           domainOKb (afterFFT lutL lutR W t s).LPAD_FFT_distance
             (afterFFT lutL lutR W t s).RPAD_FFT_distance = true)) :
    (calculate_pos o lutL lutR W true t s).X_Pos = CALC_OUTOF_X_RANGE ∧
    (calculate_pos o lutL lutR W true t s).Y_Pos = CALC_OUTOF_Y_RANGE ∧
    (calculate_pos o lutL lutR W true t s).Gamma = CALC_OUTOF_ANGLE_RANGE ∧
    (calculate_pos o lutL lutR W true t s).current = s.current ∧
    (calculate_pos o lutL lutR W true t s).curr_runs = s.curr_runs := by
  rw [calculate_pos_ready, solve_noop o _ (not_and_or.mp h)]
  exact afterFFT_defaults lutL lutR W t s

/-- C4 witness: the amended claim applied to the concrete failed-solve
cycle `cycleB_low`. -/
theorem C4_witness :
    cycleB_low.X_Pos = CALC_OUTOF_X_RANGE ∧
    cycleB_low.Y_Pos = CALC_OUTOF_Y_RANGE ∧
    cycleB_low.Gamma = CALC_OUTOF_ANGLE_RANGE ∧
    cycleB_low.current = cycleA.current ∧
    cycleB_low.curr_runs = cycleA.curr_runs :=
  C4_theorem oracle0 lut30 lut30 1 tonesLow cycleA (by with_unfolding_all decide)

/-! ## Claim C3: acquisition cycles that do not fill the window -/

/-- On a state carrying the cycle-start defaults in `X_Pos`, `Y_Pos` and
`Gamma`, the solver's published quadruple is `solveOutputs` of the
calibrated distances, Hall readings and incoming current. -/
theorem solve_defaults_out (o : TrigOracle) (v : CalcState)
    (hx : v.X_Pos = CALC_OUTOF_X_RANGE) (hy : v.Y_Pos = CALC_OUTOF_Y_RANGE)
    (hg : v.Gamma = CALC_OUTOF_ANGLE_RANGE) :
    (solve o v).X_Pos = (solveOutputs o v.LPAD_FFT_distance v.RPAD_FFT_distance
        v.LHALL_FFT_voltage v.RHALL_FFT_voltage v.current).1 ∧
    (solve o v).Y_Pos = (solveOutputs o v.LPAD_FFT_distance v.RPAD_FFT_distance
        v.LHALL_FFT_voltage v.RHALL_FFT_voltage v.current).2.1 ∧
    (solve o v).Gamma = (solveOutputs o v.LPAD_FFT_distance v.RPAD_FFT_distance
        v.LHALL_FFT_voltage v.RHALL_FFT_voltage v.current).2.2.1 ∧
    (solve o v).current = (solveOutputs o v.LPAD_FFT_distance v.RPAD_FFT_distance
        v.LHALL_FFT_voltage v.RHALL_FFT_voltage v.current).2.2.2 := by
  have h := solve_out o v
  rw [hx, hy, hg] at h
  exact h

/-- The `X_Pos`, `Y_Pos` and `Gamma` the solver publishes from the
cycle-start defaults do not depend on the incoming current. -/
theorem solveOutputs_xyg_irrel (o : TrigOracle) (dL dR hL hR : ℤ) (c c' : ℚ) :
    (solveOutputs o dL dR hL hR c).1 = (solveOutputs o dL dR hL hR c').1 ∧
    (solveOutputs o dL dR hL hR c).2.1 = (solveOutputs o dL dR hL hR c').2.1 ∧
    (solveOutputs o dL dR hL hR c).2.2.1 = (solveOutputs o dL dR hL hR c').2.2.1 :=
  solveFields_xyg_irrel o dL dR hL hR CALC_OUTOF_X_RANGE CALC_OUTOF_Y_RANGE
    CALC_OUTOF_ANGLE_RANGE c c'

/-- The current the solver publishes either does not depend on the
incoming current (both checks pass, `calculate_current` overwrites it) or
is exactly the incoming current (a check failed, nothing ran). -/
theorem solveOutputs_cur (o : TrigOracle) (dL dR hL hR : ℤ) (c c' : ℚ) :
    (solveOutputs o dL dR hL hR c).2.2.2 = (solveOutputs o dL dR hL hR c').2.2.2 ∨
    ((solveOutputs o dL dR hL hR c).2.2.2 = c ∧
     (solveOutputs o dL dR hL hR c').2.2.2 = c') := by
  by_cases hgd : (dL ≠ FFT_NO_SIGNAL ∨ dR ≠ FFT_NO_SIGNAL) ∧ domainOKb dL dR = true
  · left
    unfold solveOutputs
    rw [solveFields_pass_irrel o dL dR hL hR CALC_OUTOF_X_RANGE CALC_OUTOF_Y_RANGE
      CALC_OUTOF_ANGLE_RANGE CALC_OUTOF_ANGLE_RANGE c c' hgd.1 hgd.2]
  · right
    constructor <;>
      · unfold solveOutputs
        rw [solveFields_fail o dL dR hL hR CALC_OUTOF_X_RANGE CALC_OUTOF_Y_RANGE
          CALC_OUTOF_ANGLE_RANGE _ (by tauto)]

/-- C3 (amended): an acquisition cycle that does not fill the averaging
window increments the fill index, does not invoke the calibration lookup
(`lut_runs` unchanged), and leaves every previously published estimate —
the four averaged readings, `X_Pos`, `Y_Pos`, `Gamma` and `current` —
unchanged.  (The solver and, when its checks pass on the stale distances,
the current estimator are re-executed by the cycle, but being
deterministic on the unchanged calibrated distances they reproduce
exactly the previously published values; see the counterexample for the
re-invocation.) -/
theorem C3_theorem (o : TrigOracle) (lutL lutR : ℤ → ℤ) (W Wp : ℤ)
    (t1 t2 : Tones) (s0 s1 s2 : CalcState)
    (hW : W = 1 ∨ W = 2 ∨ W = 3)
    (hs1 : s1 = calculate_pos o lutL lutR Wp true t1 s0)
    (hs2 : s2 = calculate_pos o lutL lutR W true t2 s1)
    (h : s1.avg_counter ≠ W - 1) :
    s2.avg_counter = s1.avg_counter + 1 ∧
    s2.LPAD_FFT_distance = s1.LPAD_FFT_distance ∧
    s2.RPAD_FFT_distance = s1.RPAD_FFT_distance ∧
    s2.LHALL_FFT_voltage = s1.LHALL_FFT_voltage ∧
    s2.RHALL_FFT_voltage = s1.RHALL_FFT_voltage ∧
    s2.lut_runs = s1.lut_runs ∧
    s2.X_Pos = s1.X_Pos ∧ s2.Y_Pos = s1.Y_Pos ∧ s2.Gamma = s1.Gamma ∧
    s2.current = s1.current := by
  -- names: u1 = state cycle 1 hands to the solver, s1 = solve o u1;
  --        u2 = state cycle 2 hands to the solver, s2 = solve o u2.
  rw [calculate_pos_ready] at hs1 hs2
  have hA : afterFFT lutL lutR W t2 s1 =
      { s1 with
        LPAD_FFT_avg_array := setSlot s1.LPAD_FFT_avg_array s1.avg_counter t2.lpad
        RPAD_FFT_avg_array := setSlot s1.RPAD_FFT_avg_array s1.avg_counter t2.rpad
        LHALL_FFT_avg_array := setSlot s1.LHALL_FFT_avg_array s1.avg_counter t2.lhall
        RHALL_FFT_avg_array := setSlot s1.RHALL_FFT_avg_array s1.avg_counter t2.rhall
        X_Pos := CALC_OUTOF_X_RANGE
        Y_Pos := CALC_OUTOF_Y_RANGE
        Gamma := CALC_OUTOF_ANGLE_RANGE
        avg_counter := s1.avg_counter + 1
        num_of_samples := W } := afterFFT_nonfill lutL lutR W t2 s1 h
  -- the five fields the second solver pass can touch, via solveOutputs
  have hd2 := solve_defaults_out o (afterFFT lutL lutR W t2 s1)
    (by rw [hA]) (by rw [hA]) (by rw [hA])
  rw [← hs2, hA] at hd2
  dsimp only at hd2
  -- cycle 1: the solver pass that produced s1, also via solveOutputs
  have hd1 := solve_defaults_out o (afterFFT lutL lutR Wp t1 s0)
    (afterFFT_defaults lutL lutR Wp t1 s0).1
    (afterFFT_defaults lutL lutR Wp t1 s0).2.1
    (afterFFT_defaults lutL lutR Wp t1 s0).2.2.1
  rw [← hs1] at hd1
  -- s1's calibrated distances and Hall readings are the ones cycle 1's
  -- solver pass read
  obtain ⟨-, -, -, -, hk5, hk6, hk7, hk8, -, -, -⟩ :=
    solve_keeps o (afterFFT lutL lutR Wp t1 s0)
  rw [← hs1] at hk5 hk6 hk7 hk8
  rw [← hk5, ← hk6, ← hk7, ← hk8] at hd1
  -- counter, distances, lut_runs of s2: preserved by the second solver pass
  obtain ⟨-, -, -, -, hm5, hm6, hm7, hm8, hm9, -, hm11⟩ :=
    solve_keeps o (afterFFT lutL lutR W t2 s1)
  rw [← hs2, hA] at hm5 hm6 hm7 hm8 hm9 hm11
  dsimp only at hm5 hm6 hm7 hm8 hm9 hm11
  obtain ⟨hd2x, hd2y, hd2g, hd2c⟩ := hd2
  obtain ⟨hd1x, hd1y, hd1g, hd1c⟩ := hd1
  obtain ⟨hirx, hiry, hirg⟩ := solveOutputs_xyg_irrel o s1.LPAD_FFT_distance
    s1.RPAD_FFT_distance s1.LHALL_FFT_voltage s1.RHALL_FFT_voltage s1.current
    (afterFFT lutL lutR Wp t1 s0).current
  refine ⟨hm9, hm5, hm6, hm7, hm8, hm11, ?_, ?_, ?_, ?_⟩
  · rw [hd2x, hd1x]
    exact hirx
  · rw [hd2y, hd1y]
    exact hiry
  · rw [hd2g, hd1g]
    exact hirg
  · rw [hd2c]
    rcases solveOutputs_cur o s1.LPAD_FFT_distance s1.RPAD_FFT_distance
      s1.LHALL_FFT_voltage s1.RHALL_FFT_voltage s1.current
      (afterFFT lutL lutR Wp t1 s0).current with hc | hc
    · exact hc.trans hd1c.symm
    · exact hc.1

/-- C3 counterexample: the claim says a non-filling cycle does not invoke
the position-solver or current-estimator stages.  `cycleC` (window size 3,
fill index 0 after `cycleA`) does not fill the window and increments the
index, but the stale calibrated distances pass the solver's checks and
`calculate_current` runs again: its ghost invocation counter increases. -/
theorem C3_counterexample :
    cycleA.avg_counter ≠ 3 - 1 ∧
    cycleC.avg_counter = cycleA.avg_counter + 1 ∧
    cycleC.lut_runs = cycleA.lut_runs ∧
    cycleC.curr_runs = cycleA.curr_runs + 1 := by
  with_unfolding_all decide

/-- C3 witness: the amended claim applied to the concrete non-filling
cycle `cycleC` after `cycleA`. -/
theorem C3_witness :
    cycleC.avg_counter = cycleA.avg_counter + 1 ∧
    cycleC.LPAD_FFT_distance = cycleA.LPAD_FFT_distance ∧
    cycleC.RPAD_FFT_distance = cycleA.RPAD_FFT_distance ∧
    cycleC.LHALL_FFT_voltage = cycleA.LHALL_FFT_voltage ∧
    cycleC.RHALL_FFT_voltage = cycleA.RHALL_FFT_voltage ∧
    cycleC.lut_runs = cycleA.lut_runs ∧
    cycleC.X_Pos = cycleA.X_Pos ∧ cycleC.Y_Pos = cycleA.Y_Pos ∧
    cycleC.Gamma = cycleA.Gamma ∧ cycleC.current = cycleA.current :=
  C3_theorem oracle0 lut30 lut30 3 1 tonesGood tonesLow initState cycleA cycleC
    (Or.inr (Or.inr rfl)) rfl rfl (by with_unfolding_all decide)

/-! ## Claim C6: a filling window publishes the truncated averages -/

/-- Summing one slot after writing it. -/
theorem slotSum_setSlot_one (a : Fin 3 → ℕ) (v : ℕ) :
    slotSum (setSlot a 0 v) 1 = v := by
  simp [slotSum, setSlot, Function.update]

/-- Summing two slots after writing them in order. -/
theorem slotSum_setSlot_two (a : Fin 3 → ℕ) (v w : ℕ) :
    slotSum (setSlot (setSlot a 0 v) 1 w) 2 = v + w := by
  simp [slotSum, setSlot, Function.update]

/-- Summing three slots after writing them in order. -/
theorem slotSum_setSlot_three (a : Fin 3 → ℕ) (v w x : ℕ) :
    slotSum (setSlot (setSlot (setSlot a 0 v) 1 w) 2 x) 3 = v + w + x := by
  simp [slotSum, setSlot, Function.update]

/-- The per-channel truncated average the spec derives from a window of
tone readings: the sum of the readings divided by `W` with truncation
toward zero (`ℕ` division — the C sums are non-negative). -/
def chanAvg (f : Tones → ℕ) (W : ℤ) (ts : List Tones) : ℤ :=
  ((ts.map f).sum / W.toNat : ℕ)

theorem chanAvg_one (f : Tones → ℕ) (t1 : Tones) :
    chanAvg f 1 [t1] = (f t1 : ℤ) := by
  simp [chanAvg]

theorem chanAvg_two (f : Tones → ℕ) (t1 t2 : Tones) :
    chanAvg f 2 [t1, t2] = ((f t1 + f t2) / 2 : ℕ) := by
  simp [chanAvg]

theorem chanAvg_three (f : Tones → ℕ) (t1 t2 t3 : Tones) :
    chanAvg f 3 [t1, t2, t3] = ((f t1 + f t2 + f t3) / 3 : ℕ) := by
  have h : f t1 + (f t2 + f t3) = f t1 + f t2 + f t3 := by omega
  simp [chanAvg, h]

/-- Value-level characterisation of a ready cycle that does not fill the
window: the tone magnitudes are stored at the fill index, the index is
incremented, and the averaged readings, calibration outputs and ghost
calibration counter are untouched. -/
theorem cycle_nonfill (o : TrigOracle) (lutL lutR : ℤ → ℤ) (W : ℤ) (t : Tones)
    (s : CalcState) (h : s.avg_counter ≠ W - 1) :
    (calculate_pos o lutL lutR W true t s).LPAD_FFT_avg_array =
      setSlot s.LPAD_FFT_avg_array s.avg_counter t.lpad ∧
    (calculate_pos o lutL lutR W true t s).RPAD_FFT_avg_array =
      setSlot s.RPAD_FFT_avg_array s.avg_counter t.rpad ∧
    (calculate_pos o lutL lutR W true t s).LHALL_FFT_avg_array =
      setSlot s.LHALL_FFT_avg_array s.avg_counter t.lhall ∧
    (calculate_pos o lutL lutR W true t s).RHALL_FFT_avg_array =
      setSlot s.RHALL_FFT_avg_array s.avg_counter t.rhall ∧
    (calculate_pos o lutL lutR W true t s).avg_counter = s.avg_counter + 1 ∧
    (calculate_pos o lutL lutR W true t s).LPAD_FFT_distance = s.LPAD_FFT_distance ∧
    (calculate_pos o lutL lutR W true t s).RPAD_FFT_distance = s.RPAD_FFT_distance ∧
    (calculate_pos o lutL lutR W true t s).LHALL_FFT_voltage = s.LHALL_FFT_voltage ∧
    (calculate_pos o lutL lutR W true t s).RHALL_FFT_voltage = s.RHALL_FFT_voltage ∧
    (calculate_pos o lutL lutR W true t s).lut_runs = s.lut_runs := by
  rw [calculate_pos_ready, afterFFT_nonfill lutL lutR W t s h]
  obtain ⟨k1, k2, k3, k4, k5, k6, k7, k8, k9, -, k11⟩ := solve_keeps o
    { s with
      LPAD_FFT_avg_array := setSlot s.LPAD_FFT_avg_array s.avg_counter t.lpad
      RPAD_FFT_avg_array := setSlot s.RPAD_FFT_avg_array s.avg_counter t.rpad
      LHALL_FFT_avg_array := setSlot s.LHALL_FFT_avg_array s.avg_counter t.lhall
      RHALL_FFT_avg_array := setSlot s.RHALL_FFT_avg_array s.avg_counter t.rhall
      X_Pos := CALC_OUTOF_X_RANGE
      Y_Pos := CALC_OUTOF_Y_RANGE
      Gamma := CALC_OUTOF_ANGLE_RANGE
      avg_counter := s.avg_counter + 1
      num_of_samples := W }
  exact ⟨k1, k2, k3, k4, k9, k5, k6, k7, k8, k11⟩

/-- Value-level characterisation of a window-filling ready cycle: the
counter resets, each channel publishes the truncated average of its `W`
slots, the pad channels are pushed through their calibration tables
(`lut_runs` increments), and the published position quadruple is the
solver pass on the freshly calibrated values. -/
theorem cycle_fill (o : TrigOracle) (lutL lutR : ℤ → ℤ) (W : ℤ) (t : Tones)
    (s : CalcState) (h : s.avg_counter = W - 1) :
    (calculate_pos o lutL lutR W true t s).avg_counter = 0 ∧
    (calculate_pos o lutL lutR W true t s).LPAD_FFT_distance =
      distance_LUT1 lutL LPAD_Min LPAD_Max
        (↑(slotSum (setSlot s.LPAD_FFT_avg_array s.avg_counter t.lpad) W.toNat / W.toNat)) ∧
    (calculate_pos o lutL lutR W true t s).RPAD_FFT_distance =
      distance_LUT1 lutR RPAD_Min RPAD_Max
        (↑(slotSum (setSlot s.RPAD_FFT_avg_array s.avg_counter t.rpad) W.toNat / W.toNat)) ∧
    (calculate_pos o lutL lutR W true t s).LHALL_FFT_voltage =
      (↑(slotSum (setSlot s.LHALL_FFT_avg_array s.avg_counter t.lhall) W.toNat / W.toNat) : ℤ) ∧
    (calculate_pos o lutL lutR W true t s).RHALL_FFT_voltage =
      (↑(slotSum (setSlot s.RHALL_FFT_avg_array s.avg_counter t.rhall) W.toNat / W.toNat) : ℤ) ∧
    (calculate_pos o lutL lutR W true t s).lut_runs = s.lut_runs + 1 ∧
    (calculate_pos o lutL lutR W true t s).X_Pos =
      (solveOutputs o
        (distance_LUT1 lutL LPAD_Min LPAD_Max
          (↑(slotSum (setSlot s.LPAD_FFT_avg_array s.avg_counter t.lpad) W.toNat / W.toNat)))
        (distance_LUT1 lutR RPAD_Min RPAD_Max
          (↑(slotSum (setSlot s.RPAD_FFT_avg_array s.avg_counter t.rpad) W.toNat / W.toNat)))
        (↑(slotSum (setSlot s.LHALL_FFT_avg_array s.avg_counter t.lhall) W.toNat / W.toNat))
        (↑(slotSum (setSlot s.RHALL_FFT_avg_array s.avg_counter t.rhall) W.toNat / W.toNat))
        s.current).1 ∧
    (calculate_pos o lutL lutR W true t s).Y_Pos =
      (solveOutputs o
        (distance_LUT1 lutL LPAD_Min LPAD_Max
          (↑(slotSum (setSlot s.LPAD_FFT_avg_array s.avg_counter t.lpad) W.toNat / W.toNat)))
        (distance_LUT1 lutR RPAD_Min RPAD_Max
          (↑(slotSum (setSlot s.RPAD_FFT_avg_array s.avg_counter t.rpad) W.toNat / W.toNat)))
        (↑(slotSum (setSlot s.LHALL_FFT_avg_array s.avg_counter t.lhall) W.toNat / W.toNat))
        (↑(slotSum (setSlot s.RHALL_FFT_avg_array s.avg_counter t.rhall) W.toNat / W.toNat))
        s.current).2.1 ∧
    (calculate_pos o lutL lutR W true t s).Gamma =
      (solveOutputs o
        (distance_LUT1 lutL LPAD_Min LPAD_Max
          (↑(slotSum (setSlot s.LPAD_FFT_avg_array s.avg_counter t.lpad) W.toNat / W.toNat)))
        (distance_LUT1 lutR RPAD_Min RPAD_Max
          (↑(slotSum (setSlot s.RPAD_FFT_avg_array s.avg_counter t.rpad) W.toNat / W.toNat)))
        (↑(slotSum (setSlot s.LHALL_FFT_avg_array s.avg_counter t.lhall) W.toNat / W.toNat))
        (↑(slotSum (setSlot s.RHALL_FFT_avg_array s.avg_counter t.rhall) W.toNat / W.toNat))
        s.current).2.2.1 ∧
    (calculate_pos o lutL lutR W true t s).current =
      (solveOutputs o
        (distance_LUT1 lutL LPAD_Min LPAD_Max
          (↑(slotSum (setSlot s.LPAD_FFT_avg_array s.avg_counter t.lpad) W.toNat / W.toNat)))
        (distance_LUT1 lutR RPAD_Min RPAD_Max
          (↑(slotSum (setSlot s.RPAD_FFT_avg_array s.avg_counter t.rpad) W.toNat / W.toNat)))
        (↑(slotSum (setSlot s.LHALL_FFT_avg_array s.avg_counter t.lhall) W.toNat / W.toNat))
        (↑(slotSum (setSlot s.RHALL_FFT_avg_array s.avg_counter t.rhall) W.toNat / W.toNat))
        s.current).2.2.2 := by
  rw [calculate_pos_ready, afterFFT_fill lutL lutR W t s h]
  obtain ⟨-, -, -, -, k5, k6, k7, k8, k9, -, k11⟩ :=
    solve_keeps o (afterFFT lutL lutR W t s)
  rw [afterFFT_fill lutL lutR W t s h] at k5 k6 k7 k8 k9 k11
  have hd := solve_defaults_out o (afterFFT lutL lutR W t s)
    (by rw [afterFFT_fill lutL lutR W t s h])
    (by rw [afterFFT_fill lutL lutR W t s h])
    (by rw [afterFFT_fill lutL lutR W t s h])
  rw [afterFFT_fill lutL lutR W t s h] at hd
  obtain ⟨hdx, hdy, hdg, hdc⟩ := hd
  exact ⟨k9, k5, k6, k7, k8, k11, hdx, hdy, hdg, hdc⟩

/-- C6: for every `W ∈ {1,2,3}`, starting from fill index 0, after exactly
`W` ready cycles the averager publishes for each of the four channels the
truncated average `⌊sum of the W stored tone readings / W⌋`, resets the
fill index to 0, and invokes the calibration → position → current chain:
both pad averages are pushed through their calibration tables (`lut_runs`
increments), and the published `X_Pos`, `Y_Pos`, `Gamma` — and, whenever
the solver's guard and domain check pass on the calibrated values, the
published `current` — are exactly the solver pass on the freshly
calibrated distances and averaged Hall readings. -/
theorem C6_theorem (o : TrigOracle) (lutL lutR : ℤ → ℤ) (W : ℤ) (ts : List Tones)
    (s0 : CalcState) (hW : W = 1 ∨ W = 2 ∨ W = 3) (h0 : s0.avg_counter = 0)
    (hlen : ts.length = W.toNat) :
    (runReady o lutL lutR W ts s0).avg_counter = 0 ∧
    (runReady o lutL lutR W ts s0).LPAD_FFT_distance =
      distance_LUT1 lutL LPAD_Min LPAD_Max (chanAvg Tones.lpad W ts) ∧
    (runReady o lutL lutR W ts s0).RPAD_FFT_distance =
      distance_LUT1 lutR RPAD_Min RPAD_Max (chanAvg Tones.rpad W ts) ∧
    (runReady o lutL lutR W ts s0).LHALL_FFT_voltage = chanAvg Tones.lhall W ts ∧
    (runReady o lutL lutR W ts s0).RHALL_FFT_voltage = chanAvg Tones.rhall W ts ∧
    (runReady o lutL lutR W ts s0).lut_runs = s0.lut_runs + 1 ∧
    (runReady o lutL lutR W ts s0).X_Pos =
      (solveOutputs o (distance_LUT1 lutL LPAD_Min LPAD_Max (chanAvg Tones.lpad W ts))
        (distance_LUT1 lutR RPAD_Min RPAD_Max (chanAvg Tones.rpad W ts))
        (chanAvg Tones.lhall W ts) (chanAvg Tones.rhall W ts) 0).1 ∧
    (runReady o lutL lutR W ts s0).Y_Pos =
      (solveOutputs o (distance_LUT1 lutL LPAD_Min LPAD_Max (chanAvg Tones.lpad W ts))
        (distance_LUT1 lutR RPAD_Min RPAD_Max (chanAvg Tones.rpad W ts))
        (chanAvg Tones.lhall W ts) (chanAvg Tones.rhall W ts) 0).2.1 ∧
    (runReady o lutL lutR W ts s0).Gamma =
      (solveOutputs o (distance_LUT1 lutL LPAD_Min LPAD_Max (chanAvg Tones.lpad W ts))
        (distance_LUT1 lutR RPAD_Min RPAD_Max (chanAvg Tones.rpad W ts))
        (chanAvg Tones.lhall W ts) (chanAvg Tones.rhall W ts) 0).2.2.1 ∧
    (((distance_LUT1 lutL LPAD_Min LPAD_Max (chanAvg Tones.lpad W ts)) ≠ FFT_NO_SIGNAL ∨
      (distance_LUT1 lutR RPAD_Min RPAD_Max (chanAvg Tones.rpad W ts)) ≠ FFT_NO_SIGNAL) ∧
     domainOKb (distance_LUT1 lutL LPAD_Min LPAD_Max (chanAvg Tones.lpad W ts))
       (distance_LUT1 lutR RPAD_Min RPAD_Max (chanAvg Tones.rpad W ts)) = true →
      (runReady o lutL lutR W ts s0).current =
        (solveOutputs o (distance_LUT1 lutL LPAD_Min LPAD_Max (chanAvg Tones.lpad W ts))
          (distance_LUT1 lutR RPAD_Min RPAD_Max (chanAvg Tones.rpad W ts))
          (chanAvg Tones.lhall W ts) (chanAvg Tones.rhall W ts) 0).2.2.2) := by
  rcases hW with rfl | rfl | rfl
  · -- W = 1: the very first ready cycle fills the window
    rw [show ((1 : ℤ).toNat) = 1 from rfl] at hlen
    obtain ⟨t1, rfl⟩ := List.length_eq_one.mp hlen
    simp only [runReady, List.foldl_cons, List.foldl_nil]
    obtain ⟨f1, f2, f3, f4, f5, f6, fx, fy, fg, fc⟩ :=
      cycle_fill o lutL lutR 1 t1 s0 (by omega)
    rw [h0] at f2 f3 f4 f5 fx fy fg fc
    simp only [show ((1 : ℤ).toNat) = 1 from rfl, slotSum_setSlot_one, Nat.div_one]
      at f2 f3 f4 f5 fx fy fg fc
    rw [chanAvg_one Tones.lpad t1, chanAvg_one Tones.rpad t1,
      chanAvg_one Tones.lhall t1, chanAvg_one Tones.rhall t1]
    refine ⟨f1, f2, f3, f4, f5, f6, ?_, ?_, ?_, ?_⟩
    · exact fx.trans (solveOutputs_xyg_irrel o _ _ _ _ s0.current 0).1
    · exact fy.trans (solveOutputs_xyg_irrel o _ _ _ _ s0.current 0).2.1
    · exact fg.trans (solveOutputs_xyg_irrel o _ _ _ _ s0.current 0).2.2
    · rintro ⟨hg1, hg2⟩
      exact fc.trans (congrArg (fun q => q.2.2.2)
        (solveFields_pass_irrel o _ _ _ _ CALC_OUTOF_X_RANGE CALC_OUTOF_Y_RANGE
          CALC_OUTOF_ANGLE_RANGE CALC_OUTOF_ANGLE_RANGE s0.current 0 hg1 hg2))
  · -- W = 2: one non-filling cycle, then the filling one
    rw [show ((2 : ℤ).toNat) = 2 from rfl] at hlen
    obtain ⟨t1, t2, rfl⟩ := List.length_eq_two.mp hlen
    simp only [runReady, List.foldl_cons, List.foldl_nil]
    obtain ⟨n1, n2, n3, n4, n5, -, -, -, -, n10⟩ :=
      cycle_nonfill o lutL lutR 2 t1 s0 (by omega)
    have hc1 : (calculate_pos o lutL lutR 2 true t1 s0).avg_counter = 2 - 1 := by
      rw [n5, h0]
      decide
    obtain ⟨f1, f2, f3, f4, f5, f6, fx, fy, fg, fc⟩ :=
      cycle_fill o lutL lutR 2 t2 (calculate_pos o lutL lutR 2 true t1 s0) hc1
    simp only [n1, n2, n3, n4, n5, n10, h0, zero_add,
      show ((2 : ℤ).toNat) = 2 from rfl, slotSum_setSlot_two]
      at f2 f3 f4 f5 f6 fx fy fg fc
    rw [chanAvg_two Tones.lpad t1 t2, chanAvg_two Tones.rpad t1 t2,
      chanAvg_two Tones.lhall t1 t2, chanAvg_two Tones.rhall t1 t2]
    refine ⟨f1, f2, f3, f4, f5, f6, ?_, ?_, ?_, ?_⟩
    · exact fx.trans
        (solveOutputs_xyg_irrel o _ _ _ _ (calculate_pos o lutL lutR 2 true t1 s0).current 0).1
    · exact fy.trans
        (solveOutputs_xyg_irrel o _ _ _ _ (calculate_pos o lutL lutR 2 true t1 s0).current 0).2.1
    · exact fg.trans
        (solveOutputs_xyg_irrel o _ _ _ _ (calculate_pos o lutL lutR 2 true t1 s0).current 0).2.2
    · rintro ⟨hg1, hg2⟩
      exact fc.trans (congrArg (fun q => q.2.2.2)
        (solveFields_pass_irrel o _ _ _ _ CALC_OUTOF_X_RANGE CALC_OUTOF_Y_RANGE
          CALC_OUTOF_ANGLE_RANGE CALC_OUTOF_ANGLE_RANGE
          (calculate_pos o lutL lutR 2 true t1 s0).current 0 hg1 hg2))
  · -- W = 3: two non-filling cycles, then the filling one
    rw [show ((3 : ℤ).toNat) = 3 from rfl] at hlen
    obtain ⟨t1, t2, t3, rfl⟩ := List.length_eq_three.mp hlen
    simp only [runReady, List.foldl_cons, List.foldl_nil]
    obtain ⟨n1, n2, n3, n4, n5, -, -, -, -, n10⟩ :=
      cycle_nonfill o lutL lutR 3 t1 s0 (by omega)
    obtain ⟨m1, m2, m3, m4, m5, -, -, -, -, m10⟩ :=
      cycle_nonfill o lutL lutR 3 t2 (calculate_pos o lutL lutR 3 true t1 s0)
        (by rw [n5, h0]; decide)
    have hc2 : (calculate_pos o lutL lutR 3 true t2
        (calculate_pos o lutL lutR 3 true t1 s0)).avg_counter = 3 - 1 := by
      rw [m5, n5, h0]
      decide
    obtain ⟨f1, f2, f3, f4, f5, f6, fx, fy, fg, fc⟩ :=
      cycle_fill o lutL lutR 3 t3
        (calculate_pos o lutL lutR 3 true t2 (calculate_pos o lutL lutR 3 true t1 s0)) hc2
    simp only [m1, m2, m3, m4, m5, m10, n1, n2, n3, n4, n5, n10, h0, zero_add,
      show ((3 : ℤ).toNat) = 3 from rfl, show ((1 : ℤ) + 1) = 2 by decide,
      slotSum_setSlot_three]
      at f2 f3 f4 f5 f6 fx fy fg fc
    rw [chanAvg_three Tones.lpad t1 t2 t3, chanAvg_three Tones.rpad t1 t2 t3,
      chanAvg_three Tones.lhall t1 t2 t3, chanAvg_three Tones.rhall t1 t2 t3]
    refine ⟨f1, f2, f3, f4, f5, f6, ?_, ?_, ?_, ?_⟩
    · exact fx.trans (solveOutputs_xyg_irrel o _ _ _ _
        (calculate_pos o lutL lutR 3 true t2 (calculate_pos o lutL lutR 3 true t1 s0)).current
        0).1
    · exact fy.trans (solveOutputs_xyg_irrel o _ _ _ _
        (calculate_pos o lutL lutR 3 true t2 (calculate_pos o lutL lutR 3 true t1 s0)).current
        0).2.1
    · exact fg.trans (solveOutputs_xyg_irrel o _ _ _ _
        (calculate_pos o lutL lutR 3 true t2 (calculate_pos o lutL lutR 3 true t1 s0)).current
        0).2.2
    · rintro ⟨hg1, hg2⟩
      exact fc.trans (congrArg (fun q => q.2.2.2)
        (solveFields_pass_irrel o _ _ _ _ CALC_OUTOF_X_RANGE CALC_OUTOF_Y_RANGE
          CALC_OUTOF_ANGLE_RANGE CALC_OUTOF_ANGLE_RANGE
          (calculate_pos o lutL lutR 3 true t2
            (calculate_pos o lutL lutR 3 true t1 s0)).current 0 hg1 hg2))

/-- C6 witness: `W = 2` from startup with readings `(300, 300, 100, 50)`
and `(500, 400, 200, 150)`: every channel publishes the truncated mean
(e.g. left pad `(300 + 500) / 2 = 400`), the counter resets, and the
calibration→position→current chain runs on the averages. -/
theorem C6_witness :
    (runReady oracle0 lut30 lut30 2 [tonesGood, ⟨500, 400, 200, 150⟩] initState).avg_counter
      = 0 ∧
    (runReady oracle0 lut30 lut30 2 [tonesGood, ⟨500, 400, 200, 150⟩]
        initState).LPAD_FFT_distance =
      distance_LUT1 lut30 LPAD_Min LPAD_Max
        (chanAvg Tones.lpad 2 [tonesGood, ⟨500, 400, 200, 150⟩]) ∧
    (runReady oracle0 lut30 lut30 2 [tonesGood, ⟨500, 400, 200, 150⟩]
        initState).RPAD_FFT_distance =
      distance_LUT1 lut30 RPAD_Min RPAD_Max
        (chanAvg Tones.rpad 2 [tonesGood, ⟨500, 400, 200, 150⟩]) ∧
    (runReady oracle0 lut30 lut30 2 [tonesGood, ⟨500, 400, 200, 150⟩]
        initState).LHALL_FFT_voltage =
      chanAvg Tones.lhall 2 [tonesGood, ⟨500, 400, 200, 150⟩] ∧
    (runReady oracle0 lut30 lut30 2 [tonesGood, ⟨500, 400, 200, 150⟩]
        initState).RHALL_FFT_voltage =
      chanAvg Tones.rhall 2 [tonesGood, ⟨500, 400, 200, 150⟩] ∧
    (runReady oracle0 lut30 lut30 2 [tonesGood, ⟨500, 400, 200, 150⟩] initState).lut_runs
      = initState.lut_runs + 1 := by
  obtain ⟨w1, w2, w3, w4, w5, w6, -, -, -, -⟩ :=
    C6_theorem oracle0 lut30 lut30 2 [tonesGood, ⟨500, 400, 200, 150⟩] initState
      (Or.inr (Or.inl rfl)) rfl rfl
  exact ⟨w1, w2, w3, w4, w5, w6⟩

end CabelMonitor
